import Mathlib

-- Verification of the address-translation layer of go-multiaddr-net
-- (source file convert.go), over a shallow embedding of the code and of
-- the collaborators it calls: the layered-address (multiaddr) library,
-- the platform socket resolvers, and the overlay-transport resolver.

set_option maxHeartbeats 1000000

/-- Errors returned by the translation layer and its collaborators.
Each constructor corresponds to one error value of the Go code:
nilMultiaddr to the error built for a nil input in FromNetAddr,
notThinWaist to the DialArgs error carrying the printed address,
incorrectNetAddr to errIncorrectNetAddr, unsupportedNetwork to the
registry and parseBasicNetMaddr lookup failures, and the remaining
constructors to collaborator (multiaddr library / resolver) failures. -/
inductive Err where
  | nilMultiaddr : Err
  | notThinWaist (addr : String) : Err
  | incorrectNetAddr : Err
  | unsupportedNetwork (network : String) : Err
  | unknownProtocol (name : String) : Err
  | invalidValue (name value : String) : Err
  | invalidMultiaddr (s : String) : Err
  | resolveFailed (host : String) : Err
deriving DecidableEq, Repr

-- ## Character and number formatting utilities (collaborator model of
-- fmt / strconv style printing and parsing used by the Go code).

/-- Value of a hexadecimal digit character (lowercase letters only, as
printed by the platform formatting routines); none for any other char. -/
def hexVal (c : Char) : Option Nat :=
  if 48 ≤ c.toNat ∧ c.toNat ≤ 57 then some (c.toNat - 48)
  else if 97 ≤ c.toNat ∧ c.toNat ≤ 102 then some (c.toNat - 87)
  else none

/-- The character printed for a digit value below 16. -/
def digitChar (d : Nat) : Char :=
  if d < 10 then Char.ofNat (48 + d) else Char.ofNat (87 + d)

/-- Digit value of a character in base b (b is 10 or 16 here). -/
def charValB (b : Nat) (c : Char) : Option Nat :=
  match hexVal c with
  | some d => if d < b then some d else none
  | none => none

/-- Most significant digit first printing of n in base b; fuel-based so
that it is structurally recursive (fuel n is always enough since the
quotient shrinks at every step). -/
def natPrintAux (b : Nat) : Nat → Nat → List Char
  | 0, _ => []
  | fuel + 1, n => if n = 0 then [] else natPrintAux b fuel (n / b) ++ [digitChar (n % b)]

/-- Decimal / hexadecimal rendering of a natural number, as produced by
the platform formatting collaborator (no leading zeros, and the single
digit 0 for zero). -/
def natPrint (b n : Nat) : List Char := if n = 0 then ['0'] else natPrintAux b n n

/-- Accumulator based positional parse of a digit string in base b. -/
def natParseAux (b : Nat) (acc : Nat) : List Char → Option Nat
  | [] => some acc
  | c :: cs =>
    match charValB b c with
    | some d => natParseAux b (acc * b + d) cs
    | none => none

/-- Parse of a non-empty digit string in base b. -/
def natParse (b : Nat) (cs : List Char) : Option Nat :=
  if cs = [] then none else natParseAux b 0 cs

-- ## List-of-characters splitting and joining (collaborator model of
-- strings.Split and strings.Join on a single-character separator).

/-- Split a character list on a separator character; mirrors the Go
strings.Split function (always returns at least one part, and empty
parts are kept). -/
def splitOnChar (c : Char) : List Char → List (List Char)
  | [] => [[]]
  | x :: xs =>
    if x = c then [] :: splitOnChar c xs
    else
      match splitOnChar c xs with
      | [] => [[x]]
      | ys :: yss => (x :: ys) :: yss

/-- Join character lists with a separator character between them;
mirrors the Go strings.Join function. -/
def joinSep (c : Char) : List (List Char) → List Char
  | [] => []
  | [p] => p
  | p :: ps => p ++ c :: joinSep c ps

-- ## IP model (collaborator model of the net.IP byte-slice type).

/-- A native IP value is a byte slice, as in the Go net package. -/
abbrev IP := List Nat

/-- The 12-byte prefix that marks a 16-byte slice as an IPv4-mapped
IPv6 address (ten zero bytes followed by two 0xff bytes). -/
def v4Head12 : List Nat := [0, 0, 0, 0, 0, 0, 0, 0, 0, 0, 255, 255]

/-- Model of the Go net.IP.To4 method: a 4-byte slice is returned as
is; a 16-byte slice whose first twelve bytes are the IPv4-mapped prefix
(ten zeros then 0xff 0xff, checked in Go via isZeros and two byte
comparisons) yields its last four bytes; anything else yields none. -/
def IP.to4 (ip : IP) : Option IP :=
  if ip.length = 4 then some ip
  else if ip.length = 16 ∧ ip.take 12 = v4Head12 then some (ip.drop 12)
  else none

/-- Model of the Go net.IP.To16 method. -/
def IP.to16 (ip : IP) : Option IP :=
  if ip.length = 4 then some (v4Head12 ++ ip)
  else if ip.length = 16 then some ip
  else none

/-- Well-formedness of a byte slice as an IP value producible by the
platform: every byte below 256 and a length of 4 or 16. -/
def IP.wf (ip : IP) : Bool :=
  ip.all (fun b => b < 256) && (ip.length = 4 || ip.length = 16)

/-- Dotted-quad rendering of a 4-byte IP value. -/
def ipv4Chars (b : List Nat) : List Char := joinSep '.' (b.map (natPrint 10))

/-- Group the bytes of a 16-byte IP value into eight 16-bit group
values (big endian within each pair). -/
def groups16 : List Nat → List Nat
  | a :: b :: rest => (a * 256 + b) :: groups16 rest
  | _ => []

/-- Bytes of a list of 16-bit group values. -/
def bytesOfGroups : List Nat → List Nat
  | [] => []
  | g :: gs => g / 256 :: g % 256 :: bytesOfGroups gs

/-- Rendering of a 16-byte IP value as eight colon-separated lowercase
hexadecimal groups. Collaborator model of net.IP.String for IPv6: the
Go printer additionally compresses the longest zero run with a double
colon; the uncompressed form denotes the same bytes and is what the
paired parser below accepts, so the print / parse pair is mutually
inverse exactly as the platform pair is. -/
def ipv6Chars (bytes : List Nat) : List Char :=
  joinSep ':' ((groups16 bytes).map (natPrint 16))

/-- Collaborator model of net.IP.String: an IPv4 or IPv4-mapped value
prints as a dotted quad (the To4 preference of the Go code), any other
16-byte value prints as colon-separated groups, and an invalid length
prints as a question-mark form that no parser accepts. -/
def IP.str (ip : IP) : String :=
  match IP.to4 ip with
  | some b4 => ⟨ipv4Chars b4⟩
  | none => if ip.length = 16 then ⟨ipv6Chars ip⟩ else "?"

/-- Parse of a dotted-quad IPv4 literal: four dot-separated decimal
parts, each below 256; yields the four bytes. -/
def parseIPv4 (s : List Char) : Option IP :=
  match splitOnChar '.' s with
  | [a, b, c, d] =>
    match natParse 10 a, natParse 10 b, natParse 10 c, natParse 10 d with
    | some x, some y, some z, some w =>
      if x < 256 ∧ y < 256 ∧ z < 256 ∧ w < 256 then some [x, y, z, w] else none
    | _, _, _, _ => none
  | _ => none

/-- Parse a list of colon-separated group strings as 16-bit values. -/
def parseGroups : List (List Char) → Option (List Nat)
  | [] => some []
  | p :: ps =>
    match natParse 16 p with
    | some g =>
      if g < 65536 then
        match parseGroups ps with
        | some gs => some (g :: gs)
        | none => none
      else none
    | none => none

/-- Parse of an eight-group IPv6 literal into its sixteen bytes. -/
def parseIPv6 (s : List Char) : Option IP :=
  match parseGroups (splitOnChar ':' s) with
  | some gs => if gs.length = 8 then some (bytesOfGroups gs) else none
  | none => none

/-- Collaborator model of net.ParseIP: the first separator character
decides the family (a dot means IPv4, a colon means IPv6), and as in Go
an IPv4 literal parses to the 16-byte IPv4-mapped form. -/
def parseIP (s : List Char) : Option IP :=
  match s.find? (fun c => (c == '.') || (c == ':')) with
  | some c => if c == '.' then (parseIPv4 s).map (fun b4 => v4Head12 ++ b4) else parseIPv6 s
  | none => none

-- ## Layered address (multiaddr) model.

/-- One protocol segment of a layered address: a protocol name and an
optional value string (protocols such as utp carry no value). -/
structure Segment where
  name : String
  value : Option String
deriving DecidableEq, Repr

/-- A layered address is its ordered list of protocol segments (outer
segments first), as exposed by the multiaddr library. -/
abbrev Multiaddr := List Segment

/-- The ordered protocol-name list of a layered address; model of the
Protocols() accessor of the multiaddr library. -/
def Multiaddr.protocols (m : Multiaddr) : List String := m.map (fun s => s.name)

/-- Characters contributed by one segment to the canonical string: a
slash, the name, and for valued protocols a slash and the value. -/
def Segment.chars (s : Segment) : List Char :=
  '/' :: (s.name.data ++ (match s.value with
    | some v => '/' :: v.data
    | none => []))

/-- Characters of the canonical string form of a layered address. -/
def Multiaddr.chars : Multiaddr → List Char
  | [] => []
  | s :: rest => Segment.chars s ++ Multiaddr.chars rest

/-- Canonical string form of a layered address; model of the String()
accessor of the multiaddr library. -/
def Multiaddr.maString (m : Multiaddr) : String := ⟨Multiaddr.chars m⟩

/-- Modelled from the spec: IsThinWaist is code of this repository that
is not under src (only convert.go is). Following section 4.2 of the
spec it returns true iff the ordered protocol-name sequence is exactly
one IP segment, an IP segment followed by one of tcp or udp, or an IP
segment followed by udp followed by utp; it is total and never errors. -/
def IsThinWaist (m : Multiaddr) : Bool :=
  match Multiaddr.protocols m with
  | [p1] => p1 == "ip4" || p1 == "ip6"
  | [p1, p2] => (p1 == "ip4" || p1 == "ip6") && (p2 == "tcp" || p2 == "udp")
  | [p1, p2, p3] => (p1 == "ip4" || p1 == "ip6") && (p2 == "udp" && p3 == "utp")
  | _ => false

/-- Embedding of DialArgs from convert.go: reject non thin-waist
addresses with the notThinWaist error carrying the printed address;
split the canonical string on slashes discarding the leading empty
component; return a bare-IP pair directly when exactly two components
remain; otherwise take the third component as the network, override it
with the fifth component when that exists and equals utp while the
third equals udp, then suffix 4 or 6 according to the first component
and build the host as ip colon port (bracketed for ip6). -/
def DialArgs (m : Multiaddr) : Except Err (String × String) :=
  if IsThinWaist m = true then
    let parts := (splitOnChar '/' (Multiaddr.chars m)).drop 1
    if parts.length = 2 then
      .ok (⟨parts.getD 0 []⟩, ⟨parts.getD 1 []⟩)
    else
      let network :=
        if parts.getD 2 [] = "udp".data ∧ 4 < parts.length ∧ parts.getD 4 [] = "utp".data then
          parts.getD 4 []
        else parts.getD 2 []
      if parts.getD 0 [] = "ip4".data then
        .ok (⟨network ++ ['4']⟩, ⟨parts.getD 1 [] ++ (':' :: parts.getD 3 [])⟩)
      else if parts.getD 0 [] = "ip6".data then
        .ok (⟨network ++ ['6']⟩, ⟨'[' :: (parts.getD 1 [] ++ (']' :: ':' :: parts.getD 3 []))⟩)
      else .ok (⟨network⟩, "")
  else .error (.notThinWaist (Multiaddr.maString m))

-- ## Native address model and platform resolvers.

/-- Native (platform) addresses: the concrete net.Addr shapes the code
type-asserts against. The utp shape wraps a child address, as the
overlay-transport address type does. -/
inductive NetAddr where
  | tcp (ip : IP) (port : Nat) : NetAddr
  | udp (ip : IP) (port : Nat) : NetAddr
  | utp (child : NetAddr) : NetAddr
  | ipAddr (ip : IP) : NetAddr
deriving DecidableEq, Repr

/-- The network-name string reported by each native address shape, as
returned by the Network() method of the corresponding Go type. -/
def NetAddr.network : NetAddr → String
  | .tcp _ _ => "tcp"
  | .udp _ _ => "udp"
  | .utp _ => "utp"
  | .ipAddr _ => "ip"

/-- Model of the Go net.IP.Equal comparison: equal byte slices, or a
4-byte form matching the low bytes of an IPv4-mapped 16-byte form. -/
def ipEqual (x y : IP) : Bool :=
  if x.length = y.length then x == y
  else if x.length = 4 ∧ y.length = 16 then decide (y.take 12 = v4Head12 ∧ y.drop 12 = x)
  else if x.length = 16 ∧ y.length = 4 then decide (x.take 12 = v4Head12 ∧ x.drop 12 = y)
  else false

/-- Semantic equality of native addresses: same shape (hence same
network name), semantically equal IPs, equal ports; the utp shape
compares its wrapped child. -/
def NetAddr.semEq : NetAddr → NetAddr → Bool
  | .tcp i p, .tcp j q => ipEqual i j && p == q
  | .udp i p, .udp j q => ipEqual i j && p == q
  | .utp a, .utp b => NetAddr.semEq a b
  | .ipAddr i, .ipAddr j => ipEqual i j
  | _, _ => false

/-- Whether a native address is the bare-IP shape. -/
def NetAddr.isIPAddr : NetAddr → Bool
  | .ipAddr _ => true
  | _ => false

/-- Native addresses producible by a supported protocol: valid IP
bytes, a port below 65536 for transports, and for the overlay shape a
wrapped UDP child. -/
def NetAddr.valid : NetAddr → Bool
  | .tcp ip port => IP.wf ip && port < 65536
  | .udp ip port => IP.wf ip && port < 65536
  | .utp (.udp ip port) => IP.wf ip && port < 65536
  | .utp _ => false
  | .ipAddr ip => IP.wf ip

/-- Collaborator model of the host-and-port split performed by the
platform resolvers (net.SplitHostPort): a bracketed host is cut at the
closing bracket followed by a colon, an unbracketed host is cut at its
single colon, and stray brackets or extra colons are rejected. -/
def splitHostPort (s : List Char) : Option (List Char × List Char) :=
  match s with
  | '[' :: rest =>
    match rest.dropWhile (fun c => c ≠ ']') with
    | ']' :: ':' :: port =>
      if ':' ∈ port ∨ '[' ∈ port ∨ ']' ∈ port then none
      else some (rest.takeWhile (fun c => c ≠ ']'), port)
    | _ => none
  | _ =>
    if '[' ∈ s ∨ ']' ∈ s then none
    else
      match splitOnChar ':' s with
      | [h, p] => some (h, p)
      | _ => none

/-- Shared host-string resolution of the platform resolvers: split the
host and port, parse the IP literal and the decimal port (below 65536). -/
def resolveHostPort (host : String) : Except Err (IP × Nat) :=
  match splitHostPort host.data with
  | none => .error (.resolveFailed host)
  | some (h, p) =>
    match parseIP h, natParse 10 p with
    | some ip, some port =>
        if port < 65536 then .ok (ip, port) else .error (.resolveFailed host)
    | _, _ => .error (.resolveFailed host)

/-- Collaborator model of net.ResolveTCPAddr on literal hosts. -/
def resolveTCPAddr (network host : String) : Except Err NetAddr :=
  if network = "tcp" ∨ network = "tcp4" ∨ network = "tcp6" then
    match resolveHostPort host with
    | .ok x => .ok (.tcp x.1 x.2)
    | .error e => .error e
  else .error (.unsupportedNetwork network)

/-- Collaborator model of net.ResolveUDPAddr on literal hosts. -/
def resolveUDPAddr (network host : String) : Except Err NetAddr :=
  if network = "udp" ∨ network = "udp4" ∨ network = "udp6" then
    match resolveHostPort host with
    | .ok x => .ok (.udp x.1 x.2)
    | .error e => .error e
  else .error (.unsupportedNetwork network)

/-- Collaborator model of the overlay-transport resolver utp.ResolveAddr:
resolves the host like UDP and wraps the result in the overlay address
shape. -/
def utpResolveAddr (network host : String) : Except Err NetAddr :=
  if network = "utp" ∨ network = "utp4" ∨ network = "utp6" then
    match resolveHostPort host with
    | .ok x => .ok (.utp (.udp x.1 x.2))
    | .error e => .error e
  else .error (.unsupportedNetwork network)

/-- Collaborator model of net.ResolveIPAddr on literal hosts. -/
def resolveIPAddr (network host : String) : Except Err NetAddr :=
  if network = "ip" ∨ network = "ip4" ∨ network = "ip6" then
    match parseIP host.data with
    | some ip => .ok (.ipAddr ip)
    | none => .error (.resolveFailed host)
  else .error (.unsupportedNetwork network)

/-- Embedding of parseBasicNetMaddr from convert.go: obtain the dial
arguments, propagating a DialArgs error unchanged, then dispatch on the
network name to the matching platform resolver exactly as the Go switch
does (three names per family), returning the resolver result unchanged;
any other network name fails with the unsupported-network error. -/
def parseBasicNetMaddr (maddr : Multiaddr) : Except Err NetAddr :=
  match DialArgs maddr with
  | .error e => .error e
  | .ok (network, host) =>
    if network = "tcp" ∨ network = "tcp4" ∨ network = "tcp6" then
      resolveTCPAddr network host
    else if network = "udp" ∨ network = "udp4" ∨ network = "udp6" then
      resolveUDPAddr network host
    else if network = "utp" ∨ network = "utp4" ∨ network = "utp6" then
      utpResolveAddr network host
    else if network = "ip" ∨ network = "ip4" ∨ network = "ip6" then
      resolveIPAddr network host
    else .error (.unsupportedNetwork network)

-- ## Multiaddr construction (collaborator model of ma.NewMultiaddr).

/-- Parse slash-separated components into segments, validating each
value the way the multiaddr library protocol table does for the
protocols this system uses: ip4 takes a dotted-quad value, ip6 an
eight-group value, tcp and udp a decimal port below 65536, and utp
takes no value; any other protocol name is unknown. -/
def parseSegments : List (List Char) → Except Err (List Segment)
  | [] => .ok []
  | name :: rest =>
    if name = "utp".data then
      match parseSegments rest with
      | .ok segs => .ok (⟨"utp", none⟩ :: segs)
      | .error e => .error e
    else
      match rest with
      | [] => .error (.invalidValue ⟨name⟩ "")
      | v :: rest2 =>
        if name = "ip4".data then
          match parseIPv4 v with
          | some _ =>
            match parseSegments rest2 with
            | .ok segs => .ok (⟨"ip4", some ⟨v⟩⟩ :: segs)
            | .error e => .error e
          | none => .error (.invalidValue "ip4" ⟨v⟩)
        else if name = "ip6".data then
          match parseIPv6 v with
          | some _ =>
            match parseSegments rest2 with
            | .ok segs => .ok (⟨"ip6", some ⟨v⟩⟩ :: segs)
            | .error e => .error e
          | none => .error (.invalidValue "ip6" ⟨v⟩)
        else if name = "tcp".data ∨ name = "udp".data then
          match natParse 10 v with
          | some n =>
            if n < 65536 then
              match parseSegments rest2 with
              | .ok segs => .ok (⟨⟨name⟩, some ⟨v⟩⟩ :: segs)
              | .error e => .error e
            else .error (.invalidValue ⟨name⟩ ⟨v⟩)
          | none => .error (.invalidValue ⟨name⟩ ⟨v⟩)
        else .error (.unknownProtocol ⟨name⟩)

/-- Collaborator model of ma.NewMultiaddr: a multiaddr string must
begin with a slash; the remaining slash-separated components are parsed
into protocol segments. -/
def NewMultiaddr (s : String) : Except Err Multiaddr :=
  match s.data with
  | '/' :: _ => parseSegments ((splitOnChar '/' s.data).drop 1)
  | _ => .error (.invalidMultiaddr s)

-- ## The per-protocol converters of convert.go.

/-- Embedding of FromIP from convert.go: a value with a 4-byte form
becomes an ip4 multiaddr built from its printed form, otherwise a value
with a 16-byte form becomes an ip6 multiaddr, otherwise the conversion
fails with errIncorrectNetAddr. -/
def FromIP (ip : IP) : Except Err Multiaddr :=
  match IP.to4 ip with
  | some _ => NewMultiaddr ("/ip4/" ++ IP.str ip)
  | none =>
    match IP.to16 ip with
    | some _ => NewMultiaddr ("/ip6/" ++ IP.str ip)
    | none => .error .incorrectNetAddr

/-- Embedding of parseTcpNetAddr from convert.go: type-check the shape,
convert the IP via FromIP, build the tcp segment from the printed port,
and encapsulate (concatenate the segment sequences); every failure is
reported as errIncorrectNetAddr. -/
def parseTcpNetAddr (a : NetAddr) : Except Err Multiaddr :=
  match a with
  | .tcp ip port =>
    match FromIP ip with
    | .error _ => .error .incorrectNetAddr
    | .ok ipm =>
      match NewMultiaddr ("/tcp/" ++ ⟨natPrint 10 port⟩) with
      | .error _ => .error .incorrectNetAddr
      | .ok tcpm => .ok (ipm ++ tcpm)
  | _ => .error .incorrectNetAddr

/-- Embedding of parseUdpNetAddr from convert.go. -/
def parseUdpNetAddr (a : NetAddr) : Except Err Multiaddr :=
  match a with
  | .udp ip port =>
    match FromIP ip with
    | .error _ => .error .incorrectNetAddr
    | .ok ipm =>
      match NewMultiaddr ("/udp/" ++ ⟨natPrint 10 port⟩) with
      | .error _ => .error .incorrectNetAddr
      | .ok udpm => .ok (ipm ++ udpm)
  | _ => .error .incorrectNetAddr

/-- Embedding of parseUtpNetAddr from convert.go: unwrap the overlay
address to its UDP child, convert the IP, and build the udp-plus-utp
tail from the printed port. -/
def parseUtpNetAddr (a : NetAddr) : Except Err Multiaddr :=
  match a with
  | .utp (.udp ip port) =>
    match FromIP ip with
    | .error _ => .error .incorrectNetAddr
    | .ok ipm =>
      match NewMultiaddr ("/udp/" ++ (⟨natPrint 10 port⟩ ++ "/utp")) with
      | .error _ => .error .incorrectNetAddr
      | .ok utpm => .ok (ipm ++ utpm)
  | _ => .error .incorrectNetAddr

/-- Embedding of parseIpNetAddr from convert.go: type-check the bare-IP
shape and delegate to FromIP. -/
def parseIpNetAddr (a : NetAddr) : Except Err Multiaddr :=
  match a with
  | .ipAddr ip => FromIP ip
  | _ => .error .incorrectNetAddr

-- ## AddressSpec registry (values from convert.go, lookup modelled
-- from the spec).

/-- The specification bundle of one supported protocol, as defined in
convert.go: canonical key, the native network names it answers for, and
its two converters. -/
structure AddressSpec where
  key : String
  netNames : List String
  parseNetAddr : NetAddr → Except Err Multiaddr
  convertMultiaddr : Multiaddr → Except Err NetAddr

/-- tcpAddrSpec from convert.go. -/
def tcpAddrSpec : AddressSpec :=
  ⟨"tcp", ["tcp", "tcp4", "tcp6"], parseTcpNetAddr, parseBasicNetMaddr⟩

/-- udpAddrSpec from convert.go. -/
def udpAddrSpec : AddressSpec :=
  ⟨"udp", ["udp", "udp4", "udp6"], parseUdpNetAddr, parseBasicNetMaddr⟩

/-- utpAddrSpec from convert.go. -/
def utpAddrSpec : AddressSpec :=
  ⟨"utp", ["utp", "utp4", "utp6"], parseUtpNetAddr, parseBasicNetMaddr⟩

/-- ip4AddrSpec from convert.go. -/
def ip4AddrSpec : AddressSpec :=
  ⟨"ip4", ["ip4"], parseIpNetAddr, parseBasicNetMaddr⟩

/-- ip6AddrSpec from convert.go. -/
def ip6AddrSpec : AddressSpec :=
  ⟨"ip6", ["ip6"], parseIpNetAddr, parseBasicNetMaddr⟩

/-- The five registered specs, in registration order. -/
def addressSpecs : List AddressSpec :=
  [tcpAddrSpec, udpAddrSpec, utpAddrSpec, ip4AddrSpec, ip6AddrSpec]

/-- Modelled from the spec: the registry lookup used by FromNetAddr is
code of this repository that is not under src. Following sections 4.1
and 4.5 of the spec, the native-to-layered table is keyed by every
NetNames entry of the registered specs, and a miss is the
unsupported-network failure. -/
def getAddrParser (network : String) : Except Err (NetAddr → Except Err Multiaddr) :=
  match addressSpecs.find? (fun s => s.netNames.contains network) with
  | some s => .ok s.parseNetAddr
  | none => .error (.unsupportedNetwork network)

/-- Modelled from the spec: the registry lookup used by ToNetAddr is
code of this repository that is not under src. Following sections 4.1
and 4.5 of the spec, the layered-to-native table is keyed by the Key of
each registered spec, and a miss is the unsupported-network failure. -/
def getMaddrParser (key : String) : Except Err (Multiaddr → Except Err NetAddr) :=
  match addressSpecs.find? (fun s => s.key == key) with
  | some s => .ok s.convertMultiaddr
  | none => .error (.unsupportedNetwork key)

-- ## The two dispatch entry points of convert.go.

/-- Embedding of FromNetAddr from convert.go: a nil input fails with
the nil-multiaddr error; otherwise the converter looked up under the
network name of the address is invoked on it, and a lookup failure is
returned unchanged. -/
def FromNetAddr : Option NetAddr → Except Err Multiaddr
  | none => .error .nilMultiaddr
  | some a =>
    match getAddrParser (NetAddr.network a) with
    | .error e => .error e
    | .ok p => p a

/-- Embedding of ToNetAddr from convert.go. The Go code indexes
protos[len(protos)-1] unconditionally; on an empty protocol list that
index is out of range and the program panics, which this embedding
models as the none result (no Err value is ever produced for it).
Otherwise the converter looked up under the last protocol name is
invoked on the whole address. -/
def ToNetAddr (maddr : Multiaddr) : Option (Except Err NetAddr) :=
  match (Multiaddr.protocols maddr).getLast? with
  | none => none
  | some final =>
    some (match getMaddrParser final with
          | .error e => .error e
          | .ok p => p maddr)

-- ## Lemmas about splitting and joining.

theorem splitOnChar_ne_nil (c : Char) (l : List Char) : splitOnChar c l ≠ [] := by
  induction l with
  | nil => simp [splitOnChar]
  | cons x xs ih =>
    simp only [splitOnChar]
    by_cases hx : x = c
    · simp [hx]
    · simp only [if_neg hx]
      cases h : splitOnChar c xs <;> simp

theorem splitOnChar_cons_sep (c : Char) (l : List Char) :
    splitOnChar c (c :: l) = [] :: splitOnChar c l := by
  simp [splitOnChar]

theorem splitOnChar_not_mem {c : Char} {l : List Char} (h : c ∉ l) :
    splitOnChar c l = [l] := by
  induction l with
  | nil => rfl
  | cons x xs ih =>
    simp only [List.mem_cons, not_or] at h
    simp only [splitOnChar, if_neg (fun hh : x = c => h.1 hh.symm)]
    rw [ih h.2]

theorem splitOnChar_append_sep {c : Char} {l₁ : List Char} (l₂ : List Char) (h : c ∉ l₁) :
    splitOnChar c (l₁ ++ c :: l₂) = l₁ :: splitOnChar c l₂ := by
  induction l₁ with
  | nil => simpa using splitOnChar_cons_sep c l₂
  | cons x xs ih =>
    simp only [List.mem_cons, not_or] at h
    show splitOnChar c (x :: (xs ++ c :: l₂)) = _
    simp only [splitOnChar, if_neg (fun hh : x = c => h.1 hh.symm)]
    rw [ih h.2]

theorem not_mem_joinSep {x c : Char} {ps : List (List Char)}
    (hne : x ≠ c) (h : ∀ p ∈ ps, x ∉ p) : x ∉ joinSep c ps := by
  induction ps with
  | nil => simp [joinSep]
  | cons p ps ih =>
    cases ps with
    | nil => simpa [joinSep] using h p (by simp)
    | cons q qs =>
      simp only [joinSep, List.mem_append, List.mem_cons, not_or]
      refine ⟨h p (by simp), hne, ?_⟩
      exact ih (fun r hr => h r (List.mem_cons_of_mem p hr))

theorem sep_mem_joinSep {c : Char} {ps : List (List Char)} (h : 2 ≤ ps.length) :
    c ∈ joinSep c ps := by
  match ps, h with
  | p :: q :: qs, _ => simp [joinSep]

theorem splitOnChar_joinSep {c : Char} {ps : List (List Char)}
    (hne : ps ≠ []) (h : ∀ p ∈ ps, c ∉ p) :
    splitOnChar c (joinSep c ps) = ps := by
  induction ps with
  | nil => exact absurd rfl hne
  | cons p ps ih =>
    cases ps with
    | nil => exact splitOnChar_not_mem (h p (by simp))
    | cons q qs =>
      show splitOnChar c (p ++ c :: joinSep c (q :: qs)) = _
      rw [splitOnChar_append_sep _ (h p (by simp))]
      rw [ih (by simp) (fun r hr => h r (List.mem_cons_of_mem p hr))]

-- ## Lemmas about digit printing and parsing.

theorem hexVal_digitChar {d : Nat} (h : d < 16) : hexVal (digitChar d) = some d := by
  interval_cases d <;> decide

theorem charValB_digitChar {b d : Nat} (hb : b ≤ 16) (h : d < b) :
    charValB b (digitChar d) = some d := by
  have h16 : d < 16 := lt_of_lt_of_le h hb
  simp [charValB, hexVal_digitChar h16, h]

theorem natParseAux_print {b : Nat} (hb2 : 2 ≤ b) (hb16 : b ≤ 16) :
    ∀ fuel n, n ≤ fuel → ∀ acc rest,
      natParseAux b acc (natPrintAux b fuel n ++ rest) =
        natParseAux b (acc * b ^ (natPrintAux b fuel n).length + n) rest := by
  intro fuel
  induction fuel with
  | zero =>
    intro n hn acc rest
    have h0 : n = 0 := Nat.le_zero.mp hn
    subst h0
    simp [natPrintAux]
  | succ fuel ih =>
    intro n hn acc rest
    by_cases h0 : n = 0
    · subst h0
      simp [natPrintAux]
    · have hbpos : 0 < b := by omega
      have hnpos : 0 < n := Nat.pos_of_ne_zero h0
      have hdivlt : n / b < n := Nat.div_lt_self hnpos (by omega)
      have hdiv : n / b ≤ fuel := by omega
      simp only [natPrintAux, if_neg h0, List.append_assoc, List.singleton_append]
      rw [ih (n / b) hdiv acc (digitChar (n % b) :: rest)]
      simp only [natParseAux, charValB_digitChar hb16 (Nat.mod_lt n hbpos)]
      have harith : (acc * b ^ (natPrintAux b fuel (n / b)).length + n / b) * b + n % b =
          acc * b ^ ((natPrintAux b fuel (n / b)).length + 1) + n := by
        have hmod := Nat.div_add_mod n b
        rw [pow_succ]
        ring_nf
        omega
      rw [harith]
      congr 1
      simp

theorem natPrintAux_ne_nil {b n : Nat} (h0 : n ≠ 0) : natPrintAux b n n ≠ [] := by
  cases n with
  | zero => exact absurd rfl h0
  | succ m => simp [natPrintAux]

theorem natParse_natPrint {b : Nat} (hb2 : 2 ≤ b) (hb16 : b ≤ 16) (n : Nat) :
    natParse b (natPrint b n) = some n := by
  by_cases h0 : n = 0
  · subst h0
    have hb0 : 0 < b := by omega
    have h1 : charValB b '0' = some 0 := by
      have hx : hexVal '0' = some 0 := by decide
      simp [charValB, hx, hb0]
    show natParse b ['0'] = some 0
    have hcs : ¬(['0'] : List Char) = [] := by simp
    simp only [natParse, if_neg hcs, natParseAux, h1]
    norm_num
  · have hne := natPrintAux_ne_nil (b := b) h0
    simp only [natPrint, if_neg h0, natParse, if_neg hne]
    have := natParseAux_print hb2 hb16 n n (le_refl n) 0 []
    rw [List.append_nil] at this
    rw [this]
    simp [natParseAux]

theorem mem_natPrintAux_hex {b : Nat} (hb2 : 2 ≤ b) (hb16 : b ≤ 16) :
    ∀ fuel n c, c ∈ natPrintAux b fuel n → (hexVal c).isSome = true := by
  intro fuel
  induction fuel with
  | zero => intro n c h; simp [natPrintAux] at h
  | succ fuel ih =>
    intro n c h
    by_cases h0 : n = 0
    · subst h0; simp [natPrintAux] at h
    · simp only [natPrintAux, if_neg h0, List.mem_append, List.mem_singleton] at h
      rcases h with h | h
      · exact ih (n / b) c h
      · subst h
        rw [hexVal_digitChar (lt_of_lt_of_le (Nat.mod_lt n (by omega)) hb16)]
        rfl

theorem mem_natPrint_hex {b n : Nat} {c : Char} (hb2 : 2 ≤ b) (hb16 : b ≤ 16)
    (h : c ∈ natPrint b n) : (hexVal c).isSome = true := by
  by_cases h0 : n = 0
  · subst h0
    have hc0 : c = '0' := by simpa [natPrint] using h
    subst hc0
    decide
  · simp only [natPrint, if_neg h0] at h
    exact mem_natPrintAux_hex hb2 hb16 n n c h

theorem not_mem_natPrint {b n : Nat} {c : Char} (hb2 : 2 ≤ b) (hb16 : b ≤ 16)
    (hc : hexVal c = none) : c ∉ natPrint b n := by
  intro h
  have := mem_natPrint_hex hb2 hb16 h
  rw [hc] at this
  simp at this

theorem natPrint_ne_nil {b n : Nat} : natPrint b n ≠ [] := by
  by_cases h0 : n = 0
  · subst h0; simp [natPrint]
  · simp only [natPrint, if_neg h0]
    exact natPrintAux_ne_nil h0

-- ## Lemmas about IP printing and parsing.

theorem not_mem_ipv4Chars {c : Char} {b : List Nat} (hc : hexVal c = none) (hdot : c ≠ '.') :
    c ∉ ipv4Chars b := by
  apply not_mem_joinSep hdot
  intro p hp
  simp only [List.mem_map] at hp
  obtain ⟨n, _, rfl⟩ := hp
  exact not_mem_natPrint (by norm_num) (by norm_num) hc

theorem not_mem_ipv6Chars {c : Char} {bytes : List Nat} (hc : hexVal c = none) (hcol : c ≠ ':') :
    c ∉ ipv6Chars bytes := by
  apply not_mem_joinSep hcol
  intro p hp
  simp only [List.mem_map] at hp
  obtain ⟨n, _, rfl⟩ := hp
  exact not_mem_natPrint (by norm_num) (by norm_num) hc

theorem dot_mem_ipv4Chars {b : List Nat} (h : 2 ≤ b.length) : '.' ∈ ipv4Chars b := by
  apply sep_mem_joinSep
  simpa using h

theorem groups16_length (bytes : List Nat) : (groups16 bytes).length = bytes.length / 2 := by
  match bytes with
  | [] => rfl
  | [a] =>
    show (0 : Nat) = 1 / 2
    omega
  | a :: b :: rest =>
    show ((a * 256 + b) :: groups16 rest).length = _
    rw [List.length_cons, groups16_length rest]
    simp only [List.length_cons]
    omega

theorem groups16_bound (bytes : List Nat) (h : bytes.all (fun x => decide (x < 256)) = true) :
    ∀ g ∈ groups16 bytes, g < 65536 := by
  match bytes with
  | [] => intro g hg; simp [groups16] at hg
  | [a] => intro g hg; simp [groups16] at hg
  | a :: b :: rest =>
    intro g hg
    simp only [List.all_cons, Bool.and_eq_true, decide_eq_true_eq] at h
    have hrest := groups16_bound rest (by
      simp only [List.all_eq_true, decide_eq_true_eq]
      intro x hx
      have := h.2.2
      rw [List.all_eq_true] at this
      simpa using this x hx)
    rcases (by simpa [groups16] using hg : g = a * 256 + b ∨ g ∈ groups16 rest) with h1 | h1
    · subst h1; omega
    · exact hrest g h1

theorem bytesOfGroups_groups16 (bytes : List Nat)
    (h : bytes.all (fun x => decide (x < 256)) = true) (he : bytes.length % 2 = 0) :
    bytesOfGroups (groups16 bytes) = bytes := by
  match bytes with
  | [] => rfl
  | [a] => simp at he
  | a :: b :: rest =>
    simp only [List.all_cons, Bool.and_eq_true, decide_eq_true_eq] at h
    have hb : b < 256 := h.2.1
    have ih := bytesOfGroups_groups16 rest h.2.2 (by
      simp only [List.length_cons] at he
      omega)
    show bytesOfGroups ((a * 256 + b) :: groups16 rest) = _
    simp only [bytesOfGroups, ih]
    have h1 : (a * 256 + b) / 256 = a := by omega
    have h2 : (a * 256 + b) % 256 = b := by omega
    rw [h1, h2]

theorem parseGroups_map (gs : List Nat) (h : ∀ g ∈ gs, g < 65536) :
    parseGroups (gs.map (natPrint 16)) = some gs := by
  induction gs with
  | nil => rfl
  | cons g gs ih =>
    have h1 := @natParse_natPrint 16 (by norm_num) (by norm_num) g
    have h2 := ih (fun x hx => h x (List.mem_cons_of_mem g hx))
    simp only [List.map_cons, parseGroups, h1, h2]
    rw [if_pos (h g (by simp))]

theorem parseIPv6_print (bytes : List Nat) (hlen : bytes.length = 16)
    (hb : bytes.all (fun x => decide (x < 256)) = true) :
    parseIPv6 (ipv6Chars bytes) = some bytes := by
  have hglen : (groups16 bytes).length = 8 := by rw [groups16_length, hlen]
  have hmapne : (groups16 bytes).map (natPrint 16) ≠ [] := by
    intro hx
    have := congrArg List.length hx
    simp [hglen] at this
  have hnocol : ∀ p ∈ (groups16 bytes).map (natPrint 16), ':' ∉ p := by
    intro p hp
    simp only [List.mem_map] at hp
    obtain ⟨n, _, rfl⟩ := hp
    exact not_mem_natPrint (by norm_num) (by norm_num) (by decide)
  unfold parseIPv6 ipv6Chars
  rw [splitOnChar_joinSep hmapne hnocol,
    parseGroups_map _ (groups16_bound bytes hb)]
  simp only [hglen, if_pos]
  rw [bytesOfGroups_groups16 bytes hb (by omega)]

theorem parseIPv4_print (x y z w : Nat) (hx : x < 256) (hy : y < 256)
    (hz : z < 256) (hw : w < 256) :
    parseIPv4 (ipv4Chars [x, y, z, w]) = some [x, y, z, w] := by
  have hmapne : ([x, y, z, w].map (natPrint 10)) ≠ [] := by simp
  have hnodot : ∀ p ∈ [x, y, z, w].map (natPrint 10), '.' ∉ p := by
    intro p hp
    simp only [List.mem_map] at hp
    obtain ⟨n, _, rfl⟩ := hp
    exact not_mem_natPrint (by norm_num) (by norm_num) (by decide)
  unfold parseIPv4 ipv4Chars
  rw [splitOnChar_joinSep hmapne hnodot]
  simp only [List.map_cons, List.map_nil,
    natParse_natPrint (by norm_num : 2 ≤ 10) (by norm_num : (10 : Nat) ≤ 16)]
  simp [hx, hy, hz, hw]

theorem findSep_dot {s : List Char} (hdot : '.' ∈ s) (hcol : ':' ∉ s) :
    s.find? (fun c => (c == '.') || (c == ':')) = some '.' := by
  induction s with
  | nil => simp at hdot
  | cons x xs ih =>
    by_cases hx : x = '.'
    · subst hx
      rw [List.find?_cons_of_pos _ (by simp)]
    · have hx2 : x ≠ ':' := by
        intro hh
        rw [hh] at hcol
        simp at hcol
      rw [List.find?_cons_of_neg _ (by simp [hx, hx2])]
      refine ih ?_ (fun hh => hcol (List.mem_cons_of_mem x hh))
      rcases List.mem_cons.mp hdot with h1 | h1
      · exact absurd h1.symm hx
      · exact h1

theorem findSep_colon {s : List Char} (hcol : ':' ∈ s) (hdot : '.' ∉ s) :
    s.find? (fun c => (c == '.') || (c == ':')) = some ':' := by
  induction s with
  | nil => simp at hcol
  | cons x xs ih =>
    by_cases hx : x = ':'
    · subst hx
      rw [List.find?_cons_of_pos _ (by simp)]
    · have hx2 : x ≠ '.' := by
        intro hh
        rw [hh] at hdot
        simp at hdot
      rw [List.find?_cons_of_neg _ (by simp [hx, hx2])]
      refine ih ?_ (fun hh => hdot (List.mem_cons_of_mem x hh))
      rcases List.mem_cons.mp hcol with h1 | h1
      · exact absurd h1.symm hx
      · exact h1

theorem parseIP_v4print (x y z w : Nat) (hx : x < 256) (hy : y < 256)
    (hz : z < 256) (hw : w < 256) :
    parseIP (ipv4Chars [x, y, z, w]) = some (v4Head12 ++ [x, y, z, w]) := by
  have hdot : '.' ∈ ipv4Chars [x, y, z, w] := dot_mem_ipv4Chars (by simp)
  have hcol : ':' ∉ ipv4Chars [x, y, z, w] := not_mem_ipv4Chars (by decide) (by decide)
  unfold parseIP
  rw [findSep_dot hdot hcol]
  simp [parseIPv4_print x y z w hx hy hz hw]

theorem parseIP_v6print (bytes : List Nat) (hlen : bytes.length = 16)
    (hb : bytes.all (fun x => decide (x < 256)) = true) :
    parseIP (ipv6Chars bytes) = some bytes := by
  have hglen : (groups16 bytes).length = 8 := by rw [groups16_length, hlen]
  have hcol : ':' ∈ ipv6Chars bytes := by
    apply sep_mem_joinSep
    simp [hglen]
  have hdot : '.' ∉ ipv6Chars bytes := not_mem_ipv6Chars (by decide) (by decide)
  unfold parseIP
  rw [findSep_colon hcol hdot]
  simp [parseIPv6_print bytes hlen hb]

-- ## Lemmas about the canonical string of the thin-waist shapes.

theorem string_mk_data (s : String) : (⟨s.data⟩ : String) = s := rfl

theorem strData_append (s t : String) : (s ++ t).data = s.data ++ t.data := rfl

theorem split_seg1 (n v : String) (hn : '/' ∉ n.data) (hv : '/' ∉ v.data) :
    splitOnChar '/' (Multiaddr.chars [⟨n, some v⟩]) = [[], n.data, v.data] := by
  have hc : Multiaddr.chars [⟨n, some v⟩] = '/' :: (n.data ++ '/' :: v.data) := by
    simp [Multiaddr.chars, Segment.chars]
  rw [hc, splitOnChar_cons_sep, splitOnChar_append_sep _ hn, splitOnChar_not_mem hv]

theorem split_seg2 (n1 v1 n2 v2 : String) (h1 : '/' ∉ n1.data) (h2 : '/' ∉ v1.data)
    (h3 : '/' ∉ n2.data) (h4 : '/' ∉ v2.data) :
    splitOnChar '/' (Multiaddr.chars [⟨n1, some v1⟩, ⟨n2, some v2⟩]) =
      [[], n1.data, v1.data, n2.data, v2.data] := by
  have hc : Multiaddr.chars [⟨n1, some v1⟩, ⟨n2, some v2⟩] =
      '/' :: (n1.data ++ '/' :: (v1.data ++ '/' :: (n2.data ++ '/' :: v2.data))) := by
    simp [Multiaddr.chars, Segment.chars]
  rw [hc, splitOnChar_cons_sep, splitOnChar_append_sep _ h1, splitOnChar_append_sep _ h2,
    splitOnChar_append_sep _ h3, splitOnChar_not_mem h4]

theorem split_seg2utp (n1 v1 n2 v2 : String) (h1 : '/' ∉ n1.data) (h2 : '/' ∉ v1.data)
    (h3 : '/' ∉ n2.data) (h4 : '/' ∉ v2.data) :
    splitOnChar '/' (Multiaddr.chars [⟨n1, some v1⟩, ⟨n2, some v2⟩, ⟨"utp", none⟩]) =
      [[], n1.data, v1.data, n2.data, v2.data, "utp".data] := by
  have hc : Multiaddr.chars [⟨n1, some v1⟩, ⟨n2, some v2⟩, ⟨"utp", none⟩] =
      '/' :: (n1.data ++ '/' :: (v1.data ++ '/' ::
        (n2.data ++ '/' :: (v2.data ++ '/' :: "utp".data)))) := by
    simp [Multiaddr.chars, Segment.chars]
  rw [hc, splitOnChar_cons_sep, splitOnChar_append_sep _ h1, splitOnChar_append_sep _ h2,
    splitOnChar_append_sep _ h3, splitOnChar_append_sep _ h4,
    splitOnChar_not_mem (by decide : '/' ∉ "utp".data)]

theorem host_v4_eq (ip port : String) :
    (⟨ip.data ++ (':' :: port.data)⟩ : String) = ip ++ ":" ++ port := by
  have h : ip.data ++ (':' :: port.data) = (ip ++ ":" ++ port).data := by
    simp [strData_append]
  rw [h, string_mk_data]

theorem host_v6_eq (ip port : String) :
    (⟨'[' :: (ip.data ++ (']' :: ':' :: port.data))⟩ : String) = "[" ++ ip ++ "]:" ++ port := by
  have h : '[' :: (ip.data ++ (']' :: ':' :: port.data)) = ("[" ++ ip ++ "]:" ++ port).data := by
    simp [strData_append]
  rw [h, string_mk_data]

theorem suffix_eq (t : String) (c : Char) :
    (⟨t.data ++ [c]⟩ : String) = t ++ ⟨[c]⟩ := by
  have h : t.data ++ [c] = (t ++ ⟨[c]⟩).data := by simp [strData_append]
  rw [h, string_mk_data]

-- ## Evaluation of DialArgs on each thin-waist shape.

theorem dialArgs_ip_only (n v : String) (hn : n = "ip4" ∨ n = "ip6") (hv : '/' ∉ v.data) :
    DialArgs [⟨n, some v⟩] = .ok (n, v) := by
  have hTW : IsThinWaist [⟨n, some v⟩] = true := by
    rcases hn with h | h <;> subst h <;> rfl
  have hn2 : '/' ∉ n.data := by
    rcases hn with h | h <;> subst h <;> decide
  have hsplit := split_seg1 n v hn2 hv
  simp only [DialArgs, hTW, if_true, hsplit, List.drop_succ_cons, List.drop_zero,
    List.length_cons, List.length_nil, if_pos, List.getD]
  rfl

theorem dialArgs_trans_ip4 (t ip port : String)
    (hTW : IsThinWaist [⟨"ip4", some ip⟩, ⟨t, some port⟩] = true)
    (ht : '/' ∉ t.data) (hip : '/' ∉ ip.data) (hport : '/' ∉ port.data) :
    DialArgs [⟨"ip4", some ip⟩, ⟨t, some port⟩] = .ok (t ++ "4", ip ++ ":" ++ port) := by
  have hsplit := split_seg2 "ip4" ip t port (by decide) hip ht hport
  rw [← host_v4_eq ip port, show (t ++ "4") = ⟨t.data ++ ['4']⟩ from rfl]
  simp only [DialArgs, hTW, if_true, hsplit, List.drop_succ_cons, List.drop_zero]
  norm_num [List.getD]

theorem dialArgs_trans_ip6 (t ip port : String)
    (hTW : IsThinWaist [⟨"ip6", some ip⟩, ⟨t, some port⟩] = true)
    (ht : '/' ∉ t.data) (hip : '/' ∉ ip.data) (hport : '/' ∉ port.data) :
    DialArgs [⟨"ip6", some ip⟩, ⟨t, some port⟩] =
      .ok (t ++ "6", "[" ++ ip ++ "]:" ++ port) := by
  have hsplit := split_seg2 "ip6" ip t port (by decide) hip ht hport
  rw [← host_v6_eq ip port, show (t ++ "6") = ⟨t.data ++ ['6']⟩ from rfl]
  simp only [DialArgs, hTW, if_true, hsplit, List.drop_succ_cons, List.drop_zero]
  norm_num [List.getD]
  exact fun h => absurd h (by decide)

theorem dialArgs_utp_ip4 (ip port : String) (hip : '/' ∉ ip.data) (hport : '/' ∉ port.data) :
    DialArgs [⟨"ip4", some ip⟩, ⟨"udp", some port⟩, ⟨"utp", none⟩] =
      .ok ("utp4", ip ++ ":" ++ port) := by
  have hsplit := split_seg2utp "ip4" ip "udp" port (by decide) hip (by decide) hport
  rw [← host_v4_eq ip port]
  simp only [DialArgs, show IsThinWaist [⟨"ip4", some ip⟩, ⟨"udp", some port⟩, ⟨"utp", none⟩] =
    true from rfl, if_true, hsplit, List.drop_succ_cons, List.drop_zero]
  norm_num [List.getD]

theorem dialArgs_utp_ip6 (ip port : String) (hip : '/' ∉ ip.data) (hport : '/' ∉ port.data) :
    DialArgs [⟨"ip6", some ip⟩, ⟨"udp", some port⟩, ⟨"utp", none⟩] =
      .ok ("utp6", "[" ++ ip ++ "]:" ++ port) := by
  have hsplit := split_seg2utp "ip6" ip "udp" port (by decide) hip (by decide) hport
  rw [← host_v6_eq ip port]
  simp only [DialArgs, show IsThinWaist [⟨"ip6", some ip⟩, ⟨"udp", some port⟩, ⟨"utp", none⟩] =
    true from rfl, if_true, hsplit, List.drop_succ_cons, List.drop_zero]
  norm_num [List.getD]
  exact fun h => absurd h (by decide)

-- ## Lemmas about To4 and To16.

theorem to4_len4 {ip : IP} (h : ip.length = 4) : IP.to4 ip = some ip := by
  simp [IP.to4, h]

theorem to4_cases {ip b4 : IP} (h : IP.to4 ip = some b4) :
    (ip.length = 4 ∧ b4 = ip) ∨
      (ip.length = 16 ∧ ip.take 12 = v4Head12 ∧ b4 = ip.drop 12) := by
  unfold IP.to4 at h
  by_cases h4 : ip.length = 4
  · left
    rw [if_pos h4] at h
    exact ⟨h4, (Option.some.injEq _ _ ▸ h).symm⟩
  · right
    rw [if_neg h4] at h
    by_cases h16 : ip.length = 16 ∧ ip.take 12 = v4Head12
    · rw [if_pos h16] at h
      exact ⟨h16.1, h16.2, (Option.some.injEq _ _ ▸ h).symm⟩
    · rw [if_neg h16] at h
      exact absurd h (by simp)

theorem to4_some_len {ip b4 : IP} (h : IP.to4 ip = some b4) : b4.length = 4 := by
  rcases to4_cases h with ⟨h1, h2⟩ | ⟨h1, _, h3⟩
  · rw [h2, h1]
  · rw [h3, List.length_drop, h1]

theorem to4_some_bytes {ip b4 : IP} (h : IP.to4 ip = some b4)
    (hb : ip.all (fun x => decide (x < 256)) = true) :
    b4.all (fun x => decide (x < 256)) = true := by
  rcases to4_cases h with ⟨_, h2⟩ | ⟨_, _, h3⟩
  · rw [h2]; exact hb
  · rw [h3]
    rw [List.all_eq_true] at hb ⊢
    exact fun x hx => hb x (List.mem_of_mem_drop hx)

theorem to4_none_len {ip : IP} (h4 : IP.to4 ip = none) : ip.length ≠ 4 := by
  intro hl
  rw [to4_len4 hl] at h4
  exact absurd h4 (by simp)

theorem to16_cases {ip b : IP} (h : IP.to16 ip = some b) :
    (ip.length = 4 ∧ b = v4Head12 ++ ip) ∨ (ip.length = 16 ∧ b = ip) := by
  unfold IP.to16 at h
  by_cases h4 : ip.length = 4
  · left
    rw [if_pos h4] at h
    exact ⟨h4, (Option.some.injEq _ _ ▸ h).symm⟩
  · right
    rw [if_neg h4] at h
    by_cases h16 : ip.length = 16
    · rw [if_pos h16] at h
      exact ⟨h16, (Option.some.injEq _ _ ▸ h).symm⟩
    · rw [if_neg h16] at h
      exact absurd h (by simp)

theorem to16_none_iff {ip : IP} : IP.to16 ip = none ↔ ip.length ≠ 4 ∧ ip.length ≠ 16 := by
  unfold IP.to16
  by_cases h4 : ip.length = 4
  · simp [h4]
  · by_cases h16 : ip.length = 16 <;> simp [h4, h16]

-- ## Evaluation lemmas for parseSegments and NewMultiaddr.

theorem parseSegments_ip4_step (v : List Char) (rest : List (List Char)) (b4 : IP)
    (segs : List Segment)
    (hv : parseIPv4 v = some b4) (hrest : parseSegments rest = .ok segs) :
    parseSegments ("ip4".data :: v :: rest) = .ok (⟨"ip4", some ⟨v⟩⟩ :: segs) := by
  simp [parseSegments, hv, hrest]

theorem parseSegments_ip6_step (v : List Char) (rest : List (List Char)) (bytes : IP)
    (segs : List Segment)
    (hv : parseIPv6 v = some bytes) (hrest : parseSegments rest = .ok segs) :
    parseSegments ("ip6".data :: v :: rest) = .ok (⟨"ip6", some ⟨v⟩⟩ :: segs) := by
  simp [parseSegments, hv, hrest]

theorem parseSegments_tcp_step (v : List Char) (rest : List (List Char)) (n : Nat)
    (segs : List Segment)
    (hv : natParse 10 v = some n) (hn : n < 65536) (hrest : parseSegments rest = .ok segs) :
    parseSegments ("tcp".data :: v :: rest) = .ok (⟨"tcp", some ⟨v⟩⟩ :: segs) := by
  simp [parseSegments, hv, hn, hrest]

theorem parseSegments_udp_step (v : List Char) (rest : List (List Char)) (n : Nat)
    (segs : List Segment)
    (hv : natParse 10 v = some n) (hn : n < 65536) (hrest : parseSegments rest = .ok segs) :
    parseSegments ("udp".data :: v :: rest) = .ok (⟨"udp", some ⟨v⟩⟩ :: segs) := by
  simp [parseSegments, hv, hn, hrest]

theorem parseSegments_utp_nil : parseSegments ["utp".data] = .ok [⟨"utp", none⟩] := rfl

theorem newMultiaddr_ip4 (b4 : IP) (hlen : b4.length = 4)
    (hb : b4.all (fun x => decide (x < 256)) = true) :
    NewMultiaddr ("/ip4/" ++ ⟨ipv4Chars b4⟩) = .ok [⟨"ip4", some ⟨ipv4Chars b4⟩⟩] := by
  obtain ⟨x, y, z, w, rfl⟩ : ∃ x y z w, b4 = [x, y, z, w] := by
    match b4, hlen with
    | [x, y, z, w], _ => exact ⟨x, y, z, w, rfl⟩
  simp only [List.all_cons, Bool.and_eq_true, decide_eq_true_eq, List.all_nil] at hb
  have hparse := parseIPv4_print x y z w hb.1 hb.2.1 hb.2.2.1 hb.2.2.2.1
  have hnos : '/' ∉ ipv4Chars [x, y, z, w] := not_mem_ipv4Chars (by decide) (by decide)
  have hdata : ("/ip4/" ++ (⟨ipv4Chars [x, y, z, w]⟩ : String)).data
      = '/' :: ("ip4".data ++ ('/' :: ipv4Chars [x, y, z, w])) := by
    rw [strData_append]
    show ('/' :: ("ip4".data ++ ['/'])) ++ ipv4Chars [x, y, z, w] = _
    simp
  simp only [NewMultiaddr, hdata]
  rw [splitOnChar_cons_sep, splitOnChar_append_sep _ (by decide : '/' ∉ "ip4".data),
    splitOnChar_not_mem hnos]
  exact parseSegments_ip4_step _ _ _ _ hparse rfl

theorem newMultiaddr_ip6 (bytes : IP) (hlen : bytes.length = 16)
    (hb : bytes.all (fun x => decide (x < 256)) = true) :
    NewMultiaddr ("/ip6/" ++ ⟨ipv6Chars bytes⟩) = .ok [⟨"ip6", some ⟨ipv6Chars bytes⟩⟩] := by
  have hparse := parseIPv6_print bytes hlen hb
  have hnos : '/' ∉ ipv6Chars bytes := not_mem_ipv6Chars (by decide) (by decide)
  have hdata : ("/ip6/" ++ (⟨ipv6Chars bytes⟩ : String)).data
      = '/' :: ("ip6".data ++ ('/' :: ipv6Chars bytes)) := by
    rw [strData_append]
    show ('/' :: ("ip6".data ++ ['/'])) ++ ipv6Chars bytes = _
    simp
  simp only [NewMultiaddr, hdata]
  rw [splitOnChar_cons_sep, splitOnChar_append_sep _ (by decide : '/' ∉ "ip6".data),
    splitOnChar_not_mem hnos]
  exact parseSegments_ip6_step _ _ _ _ hparse rfl

theorem newMultiaddr_tcp (port : Nat) (hport : port < 65536) :
    NewMultiaddr ("/tcp/" ++ ⟨natPrint 10 port⟩) = .ok [⟨"tcp", some ⟨natPrint 10 port⟩⟩] := by
  have hparse := @natParse_natPrint 10 (by norm_num) (by norm_num) port
  have hnos : '/' ∉ natPrint 10 port :=
    not_mem_natPrint (by norm_num) (by norm_num) (by decide)
  have hdata : ("/tcp/" ++ (⟨natPrint 10 port⟩ : String)).data
      = '/' :: ("tcp".data ++ ('/' :: natPrint 10 port)) := by
    rw [strData_append]
    show ('/' :: ("tcp".data ++ ['/'])) ++ natPrint 10 port = _
    simp
  simp only [NewMultiaddr, hdata]
  rw [splitOnChar_cons_sep, splitOnChar_append_sep _ (by decide : '/' ∉ "tcp".data),
    splitOnChar_not_mem hnos]
  exact parseSegments_tcp_step _ _ _ _ hparse hport rfl

theorem newMultiaddr_udp (port : Nat) (hport : port < 65536) :
    NewMultiaddr ("/udp/" ++ ⟨natPrint 10 port⟩) = .ok [⟨"udp", some ⟨natPrint 10 port⟩⟩] := by
  have hparse := @natParse_natPrint 10 (by norm_num) (by norm_num) port
  have hnos : '/' ∉ natPrint 10 port :=
    not_mem_natPrint (by norm_num) (by norm_num) (by decide)
  have hdata : ("/udp/" ++ (⟨natPrint 10 port⟩ : String)).data
      = '/' :: ("udp".data ++ ('/' :: natPrint 10 port)) := by
    rw [strData_append]
    show ('/' :: ("udp".data ++ ['/'])) ++ natPrint 10 port = _
    simp
  simp only [NewMultiaddr, hdata]
  rw [splitOnChar_cons_sep, splitOnChar_append_sep _ (by decide : '/' ∉ "udp".data),
    splitOnChar_not_mem hnos]
  exact parseSegments_udp_step _ _ _ _ hparse hport rfl

theorem newMultiaddr_udp_utp (port : Nat) (hport : port < 65536) :
    NewMultiaddr ("/udp/" ++ ((⟨natPrint 10 port⟩ : String) ++ "/utp")) =
      .ok [⟨"udp", some ⟨natPrint 10 port⟩⟩, ⟨"utp", none⟩] := by
  have hparse := @natParse_natPrint 10 (by norm_num) (by norm_num) port
  have hnos : '/' ∉ natPrint 10 port :=
    not_mem_natPrint (by norm_num) (by norm_num) (by decide)
  have hdata : ("/udp/" ++ ((⟨natPrint 10 port⟩ : String) ++ "/utp")).data
      = '/' :: ("udp".data ++ ('/' :: (natPrint 10 port ++ ('/' :: "utp".data)))) := by
    rw [strData_append, strData_append]
    show ('/' :: ("udp".data ++ ['/'])) ++ (natPrint 10 port ++ ('/' :: "utp".data)) = _
    simp
  simp only [NewMultiaddr, hdata]
  rw [splitOnChar_cons_sep, splitOnChar_append_sep _ (by decide : '/' ∉ "udp".data),
    splitOnChar_append_sep _ hnos, splitOnChar_not_mem (by decide : '/' ∉ "utp".data)]
  exact parseSegments_udp_step _ _ _ _ hparse hport parseSegments_utp_nil

-- ## Evaluation lemmas for FromIP.

theorem fromIP_v4 {ip b4 : IP} (h : IP.to4 ip = some b4)
    (hb : ip.all (fun x => decide (x < 256)) = true) :
    FromIP ip = .ok [⟨"ip4", some ⟨ipv4Chars b4⟩⟩] := by
  have hstr : IP.str ip = ⟨ipv4Chars b4⟩ := by
    unfold IP.str
    rw [h]
  simp only [FromIP, h, hstr]
  exact newMultiaddr_ip4 b4 (to4_some_len h) (to4_some_bytes h hb)

theorem fromIP_v6 {ip : IP} (h4 : IP.to4 ip = none) (h16 : ip.length = 16)
    (hb : ip.all (fun x => decide (x < 256)) = true) :
    FromIP ip = .ok [⟨"ip6", some ⟨ipv6Chars ip⟩⟩] := by
  have hne4 : ip.length ≠ 4 := by omega
  have h16s : IP.to16 ip = some ip := by
    unfold IP.to16
    rw [if_neg hne4, if_pos h16]
  have hstr : IP.str ip = ⟨ipv6Chars ip⟩ := by
    unfold IP.str
    rw [h4]
    simp [h16]
  simp only [FromIP, h4, h16s, hstr]
  exact newMultiaddr_ip6 ip h16 hb

theorem fromIP_err {ip : IP} (h1 : ip.length ≠ 4) (h2 : ip.length ≠ 16) :
    FromIP ip = .error .incorrectNetAddr := by
  have h4 : IP.to4 ip = none := by
    unfold IP.to4
    rw [if_neg h1, if_neg (fun hh => h2 hh.1)]
  have h16 : IP.to16 ip = none := to16_none_iff.mpr ⟨h1, h2⟩
  simp only [FromIP, h4, h16]

theorem mem_joinSep {x c : Char} {ps : List (List Char)} (h : x ∈ joinSep c ps) :
    x = c ∨ ∃ p ∈ ps, x ∈ p := by
  induction ps with
  | nil => simp [joinSep] at h
  | cons p ps ih =>
    cases ps with
    | nil =>
      right
      exact ⟨p, by simp, by simpa [joinSep] using h⟩
    | cons q qs =>
      have h2 : x ∈ p ++ c :: joinSep c (q :: qs) := h
      rcases List.mem_append.mp h2 with h1 | h1
      · exact Or.inr ⟨p, by simp, h1⟩
      · rcases List.mem_cons.mp h1 with h2 | h2
        · exact Or.inl h2
        · rcases ih h2 with h3 | ⟨r, hr, h4⟩
          · exact Or.inl h3
          · exact Or.inr ⟨r, List.mem_cons_of_mem p hr, h4⟩

theorem takeWhile_append_stop {p : Char → Bool} {l₁ : List Char} (a : Char) (l₂ : List Char)
    (h : ∀ x ∈ l₁, p x = true) (ha : p a = false) :
    (l₁ ++ a :: l₂).takeWhile p = l₁ := by
  induction l₁ with
  | nil => simp [List.takeWhile_cons, ha]
  | cons x xs ih =>
    rw [List.cons_append, List.takeWhile_cons, h x (by simp)]
    simp only [if_true]
    rw [ih (fun y hy => h y (List.mem_cons_of_mem x hy))]

theorem dropWhile_append_stop {p : Char → Bool} {l₁ : List Char} (a : Char) (l₂ : List Char)
    (h : ∀ x ∈ l₁, p x = true) (ha : p a = false) :
    (l₁ ++ a :: l₂).dropWhile p = a :: l₂ := by
  induction l₁ with
  | nil => simp [List.dropWhile_cons, ha]
  | cons x xs ih =>
    rw [List.cons_append, List.dropWhile_cons, h x (by simp)]
    simp only [if_true]
    exact ih (fun y hy => h y (List.mem_cons_of_mem x hy))

theorem splitHostPort_plain (c : Char) (t p : List Char) (hc : c ≠ '[')
    (hcolh : ':' ∉ c :: t) (hcolp : ':' ∉ p)
    (hbr1 : '[' ∉ c :: (t ++ ':' :: p)) (hbr2 : ']' ∉ c :: (t ++ ':' :: p)) :
    splitHostPort (c :: (t ++ ':' :: p)) = some (c :: t, p) := by
  unfold splitHostPort
  split
  · next rest heq =>
    rw [List.cons.injEq] at heq
    exact absurd heq.1 hc
  · rw [if_neg (by simp [hbr1, hbr2])]
    have hs : splitOnChar ':' (c :: (t ++ ':' :: p)) = [c :: t, p] := by
      have : c :: (t ++ ':' :: p) = (c :: t) ++ ':' :: p := by simp
      rw [this, splitOnChar_append_sep _ hcolh, splitOnChar_not_mem hcolp]
    rw [hs]

theorem splitHostPort_bracket (h p : List Char)
    (hbr : ']' ∉ h) (hcolp : ':' ∉ p) (hbr1 : '[' ∉ p) (hbr2 : ']' ∉ p) :
    splitHostPort ('[' :: (h ++ ']' :: ':' :: p)) = some (h, p) := by
  unfold splitHostPort
  have hall : ∀ x ∈ h, (fun c => decide (c ≠ ']')) x = true := by
    intro x hx
    simp only [ne_eq, decide_eq_true_eq]
    intro hh
    exact hbr (hh ▸ hx)
  have hdrop : (h ++ ']' :: ':' :: p).dropWhile (fun c => c ≠ ']') = ']' :: ':' :: p :=
    dropWhile_append_stop _ _ hall (by simp)
  have htake : (h ++ ']' :: ':' :: p).takeWhile (fun c => c ≠ ']') = h :=
    takeWhile_append_stop _ _ hall (by simp)
  simp only [hdrop, htake]
  rw [if_neg (by simp [hcolp, hbr1, hbr2])]

-- ## Evaluation lemmas for resolveHostPort.

theorem mem_ne_of_not_mem {α : Type} {c x : α} {s : List α} (hx : x ∈ s) (hc : c ∉ s) :
    x ≠ c :=
  fun h => hc (h ▸ hx)

theorem ipv4Chars_cons (x y z w : Nat) :
    ∃ c t, ipv4Chars [x, y, z, w] = c :: t ∧ c ∈ ipv4Chars [x, y, z, w] := by
  show ∃ c t, joinSep '.' [natPrint 10 x, natPrint 10 y, natPrint 10 z, natPrint 10 w] =
    c :: t ∧ _
  cases hnp : natPrint 10 x with
  | nil => exact absurd hnp natPrint_ne_nil
  | cons a s =>
    refine ⟨a, s ++ '.' :: joinSep '.' [natPrint 10 y, natPrint 10 z, natPrint 10 w], ?_, ?_⟩
    · simp [joinSep, hnp]
    · show a ∈ joinSep '.' [natPrint 10 x, natPrint 10 y, natPrint 10 z, natPrint 10 w]
      simp [joinSep, hnp]

theorem resolveHostPort_v4 (b4 : IP) (port : Nat) (hlen : b4.length = 4)
    (hb : b4.all (fun x => decide (x < 256)) = true) (hport : port < 65536) :
    resolveHostPort ((⟨ipv4Chars b4⟩ : String) ++ ":" ++ (⟨natPrint 10 port⟩ : String)) =
      .ok (v4Head12 ++ b4, port) := by
  obtain ⟨x, y, z, w, rfl⟩ : ∃ x y z w, b4 = [x, y, z, w] := by
    match b4, hlen with
    | [x, y, z, w], _ => exact ⟨x, y, z, w, rfl⟩
  simp only [List.all_cons, Bool.and_eq_true, decide_eq_true_eq, List.all_nil] at hb
  have hdata : (((⟨ipv4Chars [x, y, z, w]⟩ : String) ++ ":" ++ ⟨natPrint 10 port⟩)).data
      = ipv4Chars [x, y, z, w] ++ ':' :: natPrint 10 port := by
    simp [strData_append]
  obtain ⟨c, t, hct, hcmem⟩ := ipv4Chars_cons x y z w
  have hnocol : ':' ∉ ipv4Chars [x, y, z, w] := not_mem_ipv4Chars (by decide) (by decide)
  have hnolb : '[' ∉ ipv4Chars [x, y, z, w] := not_mem_ipv4Chars (by decide) (by decide)
  have hnorb : ']' ∉ ipv4Chars [x, y, z, w] := not_mem_ipv4Chars (by decide) (by decide)
  have hpcol : ':' ∉ natPrint 10 port := not_mem_natPrint (by norm_num) (by norm_num) (by decide)
  have hplb : '[' ∉ natPrint 10 port := not_mem_natPrint (by norm_num) (by norm_num) (by decide)
  have hprb : ']' ∉ natPrint 10 port := not_mem_natPrint (by norm_num) (by norm_num) (by decide)
  have hco : ∀ ch : Char, ch ∉ ipv4Chars [x, y, z, w] → ch ∉ natPrint 10 port → ch ≠ ':' →
      ch ∉ c :: (t ++ ':' :: natPrint 10 port) := by
    intro ch h1 h2 h3 hmem
    rw [← List.cons_append, ← hct] at hmem
    rcases List.mem_append.mp hmem with hm | hm
    · exact h1 hm
    · rcases List.mem_cons.mp hm with hm2 | hm2
      · exact h3 hm2
      · exact h2 hm2
  have hsplit : splitHostPort (ipv4Chars [x, y, z, w] ++ ':' :: natPrint 10 port) =
      some (ipv4Chars [x, y, z, w], natPrint 10 port) := by
    rw [hct, List.cons_append]
    rw [show (c :: t : List Char) = ipv4Chars [x, y, z, w] from hct.symm]
    nth_rewrite 1 [hct]
    apply splitHostPort_plain
    · exact mem_ne_of_not_mem hcmem hnolb
    · rw [← hct]; exact hnocol
    · exact hpcol
    · exact hco '[' hnolb hplb (by decide)
    · exact hco ']' hnorb hprb (by decide)
  simp only [resolveHostPort, hdata, hsplit,
    parseIP_v4print x y z w hb.1 hb.2.1 hb.2.2.1 hb.2.2.2.1,
    @natParse_natPrint 10 (by norm_num) (by norm_num) port, if_pos hport]

theorem resolveHostPort_v6 (bytes : IP) (port : Nat) (hlen : bytes.length = 16)
    (hb : bytes.all (fun x => decide (x < 256)) = true) (hport : port < 65536) :
    resolveHostPort ("[" ++ (⟨ipv6Chars bytes⟩ : String) ++ "]:" ++ ⟨natPrint 10 port⟩) =
      .ok (bytes, port) := by
  have hdata : (("[" ++ (⟨ipv6Chars bytes⟩ : String) ++ "]:" ++ ⟨natPrint 10 port⟩)).data
      = '[' :: (ipv6Chars bytes ++ ']' :: ':' :: natPrint 10 port) := by
    simp [strData_append]
  have hsplit := splitHostPort_bracket (ipv6Chars bytes) (natPrint 10 port)
    (not_mem_ipv6Chars (by decide) (by decide))
    (not_mem_natPrint (by norm_num) (by norm_num) (by decide))
    (not_mem_natPrint (by norm_num) (by norm_num) (by decide))
    (not_mem_natPrint (by norm_num) (by norm_num) (by decide))
  simp only [resolveHostPort, hdata, hsplit, parseIP_v6print bytes hlen hb,
    @natParse_natPrint 10 (by norm_num) (by norm_num) port, if_pos hport]

-- ## Lemmas about ipEqual and semEq.

theorem ipEqual_self (ip : IP) : ipEqual ip ip = true := by
  simp [ipEqual]

theorem ipEqual_mapped {ip b4 : IP} (h : IP.to4 ip = some b4) :
    ipEqual (v4Head12 ++ b4) ip = true := by
  rcases to4_cases h with ⟨h1, h2⟩ | ⟨h1, h2, h3⟩
  · rw [h2]
    have hlen16 : (v4Head12 ++ ip).length = 16 := by simp [v4Head12, h1]
    have hc1 : ¬ (v4Head12 ++ ip).length = ip.length := by simp [hlen16, h1]
    have hc2 : ¬ ((v4Head12 ++ ip).length = 4 ∧ ip.length = 16) := by simp [hlen16]
    have hc3 : (v4Head12 ++ ip).length = 16 ∧ ip.length = 4 := ⟨hlen16, h1⟩
    unfold ipEqual
    rw [if_neg hc1, if_neg hc2, if_pos hc3]
    simp only [decide_eq_true_eq]
    exact ⟨List.take_left v4Head12 ip, List.drop_left v4Head12 ip⟩
  · subst h3
    have hid : v4Head12 ++ ip.drop 12 = ip := by
      conv_rhs => rw [← List.take_append_drop 12 ip]
      rw [h2]
    rw [hid]
    exact ipEqual_self ip

-- ## Registry lookup evaluation lemmas.

theorem getAddrParser_tcp : getAddrParser "tcp" = .ok parseTcpNetAddr := rfl

theorem getAddrParser_udp : getAddrParser "udp" = .ok parseUdpNetAddr := rfl

theorem getAddrParser_utp : getAddrParser "utp" = .ok parseUtpNetAddr := rfl

theorem getAddrParser_ip : getAddrParser "ip" = .error (.unsupportedNetwork "ip") := rfl

theorem getMaddrParser_hit (k : String) (hk : k ∈ (["tcp", "udp", "utp", "ip4", "ip6"] : List String)) :
    getMaddrParser k = .ok parseBasicNetMaddr := by
  simp only [List.mem_cons, List.not_mem_nil, or_false] at hk
  rcases hk with rfl | rfl | rfl | rfl | rfl <;> rfl

theorem getAddrParser_miss (n : String)
    (h : ¬ n ∈ (["tcp", "tcp4", "tcp6", "udp", "udp4", "udp6", "utp", "utp4", "utp6",
      "ip4", "ip6"] : List String)) :
    getAddrParser n = .error (.unsupportedNetwork n) := by
  simp only [List.mem_cons, not_or] at h
  unfold getAddrParser
  have hfind : addressSpecs.find? (fun s => s.netNames.contains n) = none := by
    rw [List.find?_eq_none]
    intro s hs
    have hs5 : s = tcpAddrSpec ∨ s = udpAddrSpec ∨ s = utpAddrSpec ∨ s = ip4AddrSpec ∨
        s = ip6AddrSpec := by simpa [addressSpecs] using hs
    rcases hs5 with rfl | rfl | rfl | rfl | rfl <;>
      simp [tcpAddrSpec, udpAddrSpec, utpAddrSpec, ip4AddrSpec, ip6AddrSpec] <;>
      tauto
  rw [hfind]

theorem getMaddrParser_miss (k : String)
    (h : ¬ k ∈ (["tcp", "udp", "utp", "ip4", "ip6"] : List String)) :
    getMaddrParser k = .error (.unsupportedNetwork k) := by
  simp only [List.mem_cons, not_or] at h
  unfold getMaddrParser
  have hfind : addressSpecs.find? (fun s => s.key == k) = none := by
    rw [List.find?_eq_none]
    intro s hs
    have hs5 : s = tcpAddrSpec ∨ s = udpAddrSpec ∨ s = utpAddrSpec ∨ s = ip4AddrSpec ∨
        s = ip6AddrSpec := by simpa [addressSpecs] using hs
    rcases hs5 with rfl | rfl | rfl | rfl | rfl <;>
      simp [tcpAddrSpec, udpAddrSpec, utpAddrSpec, ip4AddrSpec, ip6AddrSpec] <;>
      tauto
  rw [hfind]

-- ## Evaluation of parseBasicNetMaddr on the round-trip shapes.

theorem parseBasic_tcp4 (b4 : IP) (port : Nat) (hlen : b4.length = 4)
    (hb : b4.all (fun x => decide (x < 256)) = true) (hport : port < 65536) :
    parseBasicNetMaddr [⟨"ip4", some ⟨ipv4Chars b4⟩⟩, ⟨"tcp", some ⟨natPrint 10 port⟩⟩] =
      .ok (.tcp (v4Head12 ++ b4) port) := by
  have hdial := dialArgs_trans_ip4 "tcp" ⟨ipv4Chars b4⟩ ⟨natPrint 10 port⟩ rfl (by decide)
    (not_mem_ipv4Chars (by decide) (by decide))
    (not_mem_natPrint (by norm_num) (by norm_num) (by decide))
  rw [show ("tcp" ++ "4" : String) = "tcp4" from rfl] at hdial
  simp only [parseBasicNetMaddr, hdial]
  rw [if_pos (Or.inr (Or.inl trivial))]
  unfold resolveTCPAddr
  rw [if_pos (Or.inr (Or.inl rfl)), resolveHostPort_v4 b4 port hlen hb hport]

theorem parseBasic_tcp6 (bytes : IP) (port : Nat) (hlen : bytes.length = 16)
    (hb : bytes.all (fun x => decide (x < 256)) = true) (hport : port < 65536) :
    parseBasicNetMaddr [⟨"ip6", some ⟨ipv6Chars bytes⟩⟩, ⟨"tcp", some ⟨natPrint 10 port⟩⟩] =
      .ok (.tcp bytes port) := by
  have hdial := dialArgs_trans_ip6 "tcp" ⟨ipv6Chars bytes⟩ ⟨natPrint 10 port⟩ rfl (by decide)
    (not_mem_ipv6Chars (by decide) (by decide))
    (not_mem_natPrint (by norm_num) (by norm_num) (by decide))
  rw [show ("tcp" ++ "6" : String) = "tcp6" from rfl] at hdial
  simp only [parseBasicNetMaddr, hdial]
  rw [if_pos (Or.inr (Or.inr trivial))]
  unfold resolveTCPAddr
  rw [if_pos (Or.inr (Or.inr rfl)), resolveHostPort_v6 bytes port hlen hb hport]

theorem parseBasic_udp4 (b4 : IP) (port : Nat) (hlen : b4.length = 4)
    (hb : b4.all (fun x => decide (x < 256)) = true) (hport : port < 65536) :
    parseBasicNetMaddr [⟨"ip4", some ⟨ipv4Chars b4⟩⟩, ⟨"udp", some ⟨natPrint 10 port⟩⟩] =
      .ok (.udp (v4Head12 ++ b4) port) := by
  have hdial := dialArgs_trans_ip4 "udp" ⟨ipv4Chars b4⟩ ⟨natPrint 10 port⟩ rfl (by decide)
    (not_mem_ipv4Chars (by decide) (by decide))
    (not_mem_natPrint (by norm_num) (by norm_num) (by decide))
  rw [show ("udp" ++ "4" : String) = "udp4" from rfl] at hdial
  simp only [parseBasicNetMaddr, hdial]
  rw [if_neg (by decide), if_pos (Or.inr (Or.inl trivial))]
  unfold resolveUDPAddr
  rw [if_pos (Or.inr (Or.inl rfl)), resolveHostPort_v4 b4 port hlen hb hport]

theorem parseBasic_udp6 (bytes : IP) (port : Nat) (hlen : bytes.length = 16)
    (hb : bytes.all (fun x => decide (x < 256)) = true) (hport : port < 65536) :
    parseBasicNetMaddr [⟨"ip6", some ⟨ipv6Chars bytes⟩⟩, ⟨"udp", some ⟨natPrint 10 port⟩⟩] =
      .ok (.udp bytes port) := by
  have hdial := dialArgs_trans_ip6 "udp" ⟨ipv6Chars bytes⟩ ⟨natPrint 10 port⟩ rfl (by decide)
    (not_mem_ipv6Chars (by decide) (by decide))
    (not_mem_natPrint (by norm_num) (by norm_num) (by decide))
  rw [show ("udp" ++ "6" : String) = "udp6" from rfl] at hdial
  simp only [parseBasicNetMaddr, hdial]
  rw [if_neg (by decide), if_pos (Or.inr (Or.inr trivial))]
  unfold resolveUDPAddr
  rw [if_pos (Or.inr (Or.inr rfl)), resolveHostPort_v6 bytes port hlen hb hport]

theorem parseBasic_utp4 (b4 : IP) (port : Nat) (hlen : b4.length = 4)
    (hb : b4.all (fun x => decide (x < 256)) = true) (hport : port < 65536) :
    parseBasicNetMaddr [⟨"ip4", some ⟨ipv4Chars b4⟩⟩, ⟨"udp", some ⟨natPrint 10 port⟩⟩,
      ⟨"utp", none⟩] = .ok (.utp (.udp (v4Head12 ++ b4) port)) := by
  have hdial := dialArgs_utp_ip4 ⟨ipv4Chars b4⟩ ⟨natPrint 10 port⟩
    (not_mem_ipv4Chars (by decide) (by decide))
    (not_mem_natPrint (by norm_num) (by norm_num) (by decide))
  simp only [parseBasicNetMaddr, hdial]
  rw [if_neg (by decide), if_neg (by decide), if_pos (Or.inr (Or.inl trivial))]
  unfold utpResolveAddr
  rw [if_pos (Or.inr (Or.inl rfl)), resolveHostPort_v4 b4 port hlen hb hport]

theorem parseBasic_utp6 (bytes : IP) (port : Nat) (hlen : bytes.length = 16)
    (hb : bytes.all (fun x => decide (x < 256)) = true) (hport : port < 65536) :
    parseBasicNetMaddr [⟨"ip6", some ⟨ipv6Chars bytes⟩⟩, ⟨"udp", some ⟨natPrint 10 port⟩⟩,
      ⟨"utp", none⟩] = .ok (.utp (.udp bytes port)) := by
  have hdial := dialArgs_utp_ip6 ⟨ipv6Chars bytes⟩ ⟨natPrint 10 port⟩
    (not_mem_ipv6Chars (by decide) (by decide))
    (not_mem_natPrint (by norm_num) (by norm_num) (by decide))
  simp only [parseBasicNetMaddr, hdial]
  rw [if_neg (by decide), if_neg (by decide), if_pos (Or.inr (Or.inr trivial))]
  unfold utpResolveAddr
  rw [if_pos (Or.inr (Or.inr rfl)), resolveHostPort_v6 bytes port hlen hb hport]

-- ## ToNetAddr dispatch evaluation.

theorem toNetAddr_eval (m : Multiaddr) (final : String)
    (h : (Multiaddr.protocols m).getLast? = some final)
    (hk : getMaddrParser final = .ok parseBasicNetMaddr) :
    ToNetAddr m = some (parseBasicNetMaddr m) := by
  simp only [ToNetAddr, h, hk]

-- ## Round-trip case lemmas.

theorem wf_unpack {ip : IP} (hwf : IP.wf ip = true) :
    ip.all (fun x => decide (x < 256)) = true ∧ (ip.length = 4 ∨ ip.length = 16) := by
  simp only [IP.wf, Bool.and_eq_true, Bool.or_eq_true, decide_eq_true_eq] at hwf
  exact hwf

theorem wf_len16_of_to4_none {ip : IP} (hwf : IP.wf ip = true) (h4 : IP.to4 ip = none) :
    ip.length = 16 := by
  rcases (wf_unpack hwf).2 with h | h
  · exact absurd h (to4_none_len h4)
  · exact h

theorem roundtrip_tcp (ip : IP) (port : Nat) (hwf : IP.wf ip = true) (hport : port < 65536) :
    ∃ m b, FromNetAddr (some (.tcp ip port)) = .ok m ∧ ToNetAddr m = some (.ok b) ∧
      NetAddr.semEq b (.tcp ip port) = true := by
  have hb := (wf_unpack hwf).1
  have hdisp : FromNetAddr (some (.tcp ip port)) = parseTcpNetAddr (.tcp ip port) := by
    simp only [FromNetAddr, NetAddr.network, getAddrParser_tcp]
  cases h4 : IP.to4 ip with
  | some b4 =>
    have hm : parseTcpNetAddr (.tcp ip port) =
        .ok [⟨"ip4", some ⟨ipv4Chars b4⟩⟩, ⟨"tcp", some ⟨natPrint 10 port⟩⟩] := by
      simp only [parseTcpNetAddr, fromIP_v4 h4 hb, newMultiaddr_tcp port hport]
      rfl
    refine ⟨[⟨"ip4", some ⟨ipv4Chars b4⟩⟩, ⟨"tcp", some ⟨natPrint 10 port⟩⟩],
      .tcp (v4Head12 ++ b4) port, by rw [hdisp, hm], ?_, ?_⟩
    · rw [toNetAddr_eval [⟨"ip4", some ⟨ipv4Chars b4⟩⟩, ⟨"tcp", some ⟨natPrint 10 port⟩⟩]
          "tcp" rfl rfl,
        parseBasic_tcp4 b4 port (to4_some_len h4) (to4_some_bytes h4 hb) hport]
    · simp [NetAddr.semEq, ipEqual_mapped h4]
  | none =>
    have h16 := wf_len16_of_to4_none hwf h4
    have hm : parseTcpNetAddr (.tcp ip port) =
        .ok [⟨"ip6", some ⟨ipv6Chars ip⟩⟩, ⟨"tcp", some ⟨natPrint 10 port⟩⟩] := by
      simp only [parseTcpNetAddr, fromIP_v6 h4 h16 hb, newMultiaddr_tcp port hport]
      rfl
    refine ⟨[⟨"ip6", some ⟨ipv6Chars ip⟩⟩, ⟨"tcp", some ⟨natPrint 10 port⟩⟩],
      .tcp ip port, by rw [hdisp, hm], ?_, ?_⟩
    · rw [toNetAddr_eval [⟨"ip6", some ⟨ipv6Chars ip⟩⟩, ⟨"tcp", some ⟨natPrint 10 port⟩⟩]
          "tcp" rfl rfl, parseBasic_tcp6 ip port h16 hb hport]
    · simp [NetAddr.semEq, ipEqual_self]

theorem roundtrip_udp (ip : IP) (port : Nat) (hwf : IP.wf ip = true) (hport : port < 65536) :
    ∃ m b, FromNetAddr (some (.udp ip port)) = .ok m ∧ ToNetAddr m = some (.ok b) ∧
      NetAddr.semEq b (.udp ip port) = true := by
  have hb := (wf_unpack hwf).1
  have hdisp : FromNetAddr (some (.udp ip port)) = parseUdpNetAddr (.udp ip port) := by
    simp only [FromNetAddr, NetAddr.network, getAddrParser_udp]
  cases h4 : IP.to4 ip with
  | some b4 =>
    have hm : parseUdpNetAddr (.udp ip port) =
        .ok [⟨"ip4", some ⟨ipv4Chars b4⟩⟩, ⟨"udp", some ⟨natPrint 10 port⟩⟩] := by
      simp only [parseUdpNetAddr, fromIP_v4 h4 hb, newMultiaddr_udp port hport]
      rfl
    refine ⟨[⟨"ip4", some ⟨ipv4Chars b4⟩⟩, ⟨"udp", some ⟨natPrint 10 port⟩⟩],
      .udp (v4Head12 ++ b4) port, by rw [hdisp, hm], ?_, ?_⟩
    · rw [toNetAddr_eval [⟨"ip4", some ⟨ipv4Chars b4⟩⟩, ⟨"udp", some ⟨natPrint 10 port⟩⟩]
          "udp" rfl rfl,
        parseBasic_udp4 b4 port (to4_some_len h4) (to4_some_bytes h4 hb) hport]
    · simp [NetAddr.semEq, ipEqual_mapped h4]
  | none =>
    have h16 := wf_len16_of_to4_none hwf h4
    have hm : parseUdpNetAddr (.udp ip port) =
        .ok [⟨"ip6", some ⟨ipv6Chars ip⟩⟩, ⟨"udp", some ⟨natPrint 10 port⟩⟩] := by
      simp only [parseUdpNetAddr, fromIP_v6 h4 h16 hb, newMultiaddr_udp port hport]
      rfl
    refine ⟨[⟨"ip6", some ⟨ipv6Chars ip⟩⟩, ⟨"udp", some ⟨natPrint 10 port⟩⟩],
      .udp ip port, by rw [hdisp, hm], ?_, ?_⟩
    · rw [toNetAddr_eval [⟨"ip6", some ⟨ipv6Chars ip⟩⟩, ⟨"udp", some ⟨natPrint 10 port⟩⟩]
          "udp" rfl rfl, parseBasic_udp6 ip port h16 hb hport]
    · simp [NetAddr.semEq, ipEqual_self]

theorem roundtrip_utp (ip : IP) (port : Nat) (hwf : IP.wf ip = true) (hport : port < 65536) :
    ∃ m b, FromNetAddr (some (.utp (.udp ip port))) = .ok m ∧ ToNetAddr m = some (.ok b) ∧
      NetAddr.semEq b (.utp (.udp ip port)) = true := by
  have hb := (wf_unpack hwf).1
  have hdisp : FromNetAddr (some (.utp (.udp ip port))) =
      parseUtpNetAddr (.utp (.udp ip port)) := by
    simp only [FromNetAddr, NetAddr.network, getAddrParser_utp]
  cases h4 : IP.to4 ip with
  | some b4 =>
    have hm : parseUtpNetAddr (.utp (.udp ip port)) =
        .ok [⟨"ip4", some ⟨ipv4Chars b4⟩⟩, ⟨"udp", some ⟨natPrint 10 port⟩⟩, ⟨"utp", none⟩] := by
      simp only [parseUtpNetAddr, fromIP_v4 h4 hb, newMultiaddr_udp_utp port hport]
      rfl
    refine ⟨[⟨"ip4", some ⟨ipv4Chars b4⟩⟩, ⟨"udp", some ⟨natPrint 10 port⟩⟩, ⟨"utp", none⟩],
      .utp (.udp (v4Head12 ++ b4) port), by rw [hdisp, hm], ?_, ?_⟩
    · rw [toNetAddr_eval [⟨"ip4", some ⟨ipv4Chars b4⟩⟩, ⟨"udp", some ⟨natPrint 10 port⟩⟩,
          ⟨"utp", none⟩] "utp" rfl rfl,
        parseBasic_utp4 b4 port (to4_some_len h4) (to4_some_bytes h4 hb) hport]
    · simp [NetAddr.semEq, ipEqual_mapped h4]
  | none =>
    have h16 := wf_len16_of_to4_none hwf h4
    have hm : parseUtpNetAddr (.utp (.udp ip port)) =
        .ok [⟨"ip6", some ⟨ipv6Chars ip⟩⟩, ⟨"udp", some ⟨natPrint 10 port⟩⟩, ⟨"utp", none⟩] := by
      simp only [parseUtpNetAddr, fromIP_v6 h4 h16 hb, newMultiaddr_udp_utp port hport]
      rfl
    refine ⟨[⟨"ip6", some ⟨ipv6Chars ip⟩⟩, ⟨"udp", some ⟨natPrint 10 port⟩⟩, ⟨"utp", none⟩],
      .utp (.udp ip port), by rw [hdisp, hm], ?_, ?_⟩
    · rw [toNetAddr_eval [⟨"ip6", some ⟨ipv6Chars ip⟩⟩, ⟨"udp", some ⟨natPrint 10 port⟩⟩,
          ⟨"utp", none⟩] "utp" rfl rfl, parseBasic_utp6 ip port h16 hb hport]
    · simp [NetAddr.semEq, ipEqual_self]

-- ## Claim theorems.

/-- Claim C1: for every layered address m, DialArgs m returns an error
exactly when IsThinWaist m is false; when IsThinWaist m is true it
returns a (networkName, host) pair with no error, and when it fails the
returned error is the NotThinWaist error (carrying the printed address). -/
theorem claim_dialArgs_error_iff (m : Multiaddr) :
    (IsThinWaist m = true → ∃ network host, DialArgs m = .ok (network, host)) ∧
    (IsThinWaist m = false → DialArgs m = .error (.notThinWaist (Multiaddr.maString m))) := by
  constructor
  · intro h
    simp only [DialArgs, h, if_true]
    split
    · exact ⟨_, _, rfl⟩
    · split
      · exact ⟨_, _, rfl⟩
      · split
        · exact ⟨_, _, rfl⟩
        · exact ⟨_, _, rfl⟩
  · intro h
    have hnot : ¬ IsThinWaist m = true := by
      rw [h]
      simp
    unfold DialArgs
    rw [if_neg hnot]

/-- Witness for C1 at a thin-waist and a non thin-waist input. -/
theorem claim_dialArgs_error_iff_witness :
    (∃ network host, DialArgs [⟨"ip4", some "1.2.3.4"⟩] = .ok (network, host)) ∧
    DialArgs ([] : Multiaddr) = .error (.notThinWaist (Multiaddr.maString [])) :=
  ⟨(claim_dialArgs_error_iff [⟨"ip4", some "1.2.3.4"⟩]).1 (by decide),
   (claim_dialArgs_error_iff []).2 (by decide)⟩

/-- Claim C2: on a thin-waist address, DialArgs returns the two
components directly in the bare-IP case; in the transport case it
returns the transport name suffixed with 4 or 6 according to the IP
segment, with the host composed as ip colon port for IPv4 and as the
bracketed form for IPv6. -/
theorem claim_dialArgs_thin_forms (ipn t ip port : String)
    (hipn : ipn = "ip4" ∨ ipn = "ip6") (ht : t = "tcp" ∨ t = "udp")
    (hip : '/' ∉ ip.data) (hport : '/' ∉ port.data) :
    DialArgs [⟨ipn, some ip⟩] = .ok (ipn, ip) ∧
    DialArgs [⟨"ip4", some ip⟩, ⟨t, some port⟩] = .ok (t ++ "4", ip ++ ":" ++ port) ∧
    DialArgs [⟨"ip6", some ip⟩, ⟨t, some port⟩] =
      .ok (t ++ "6", "[" ++ ip ++ "]:" ++ port) := by
  refine ⟨dialArgs_ip_only ipn ip hipn hip, ?_, ?_⟩
  · exact dialArgs_trans_ip4 t ip port
      (by rcases ht with h | h <;> subst h <;> rfl)
      (by rcases ht with h | h <;> subst h <;> decide) hip hport
  · exact dialArgs_trans_ip6 t ip port
      (by rcases ht with h | h <;> subst h <;> rfl)
      (by rcases ht with h | h <;> subst h <;> decide) hip hport

/-- Witness for C2 on the two worked examples of the spec. -/
theorem claim_dialArgs_thin_forms_witness :
    DialArgs [⟨"ip4", some "7.7.7.7"⟩, ⟨"tcp", some "4242"⟩] = .ok ("tcp4", "7.7.7.7:4242") ∧
    DialArgs [⟨"ip6", some "::1"⟩, ⟨"udp", some "1234"⟩] = .ok ("udp6", "[::1]:1234") :=
  ⟨(claim_dialArgs_thin_forms "ip4" "tcp" "7.7.7.7" "4242" (Or.inl rfl) (Or.inl rfl)
      (by decide) (by decide)).2.1,
   (claim_dialArgs_thin_forms "ip6" "udp" "::1" "1234" (Or.inr rfl) (Or.inr rfl)
      (by decide) (by decide)).2.2⟩

/-- Claim C3: when the third component is udp and a fifth component
exists and equals utp, the network name becomes utp before version
suffixing; in particular the spec example evaluates to utp4 with the
plain ip colon port host. -/
theorem claim_dialArgs_utp_override (ip port : String)
    (hip : '/' ∉ ip.data) (hport : '/' ∉ port.data) :
    DialArgs [⟨"ip4", some ip⟩, ⟨"udp", some port⟩, ⟨"utp", none⟩] =
      .ok ("utp4", ip ++ ":" ++ port) ∧
    DialArgs [⟨"ip6", some ip⟩, ⟨"udp", some port⟩, ⟨"utp", none⟩] =
      .ok ("utp6", "[" ++ ip ++ "]:" ++ port) ∧
    DialArgs [⟨"ip4", some "1.2.3.4"⟩, ⟨"udp", some "9"⟩, ⟨"utp", none⟩] =
      .ok ("utp4", "1.2.3.4:9") :=
  ⟨dialArgs_utp_ip4 ip port hip hport, dialArgs_utp_ip6 ip port hip hport,
   dialArgs_utp_ip4 "1.2.3.4" "9" (by decide) (by decide)⟩

/-- Witness for C3 on the spec example. -/
theorem claim_dialArgs_utp_override_witness :
    DialArgs [⟨"ip4", some "1.2.3.4"⟩, ⟨"udp", some "9"⟩, ⟨"utp", none⟩] =
      .ok ("utp4", "1.2.3.4:9") :=
  (claim_dialArgs_utp_override "1.2.3.4" "9" (by decide) (by decide)).2.2

/-- Claim C4: IsThinWaist holds exactly for the eight protocol-name
sequences ip4; ip6; ip4 tcp; ip6 tcp; ip4 udp; ip6 udp; ip4 udp utp;
ip6 udp utp, and is false for every other sequence (it is a total
boolean function, so it never errors). -/
theorem claim_isThinWaist_shapes (m : Multiaddr) :
    IsThinWaist m = true ↔
      (Multiaddr.protocols m = ["ip4"] ∨ Multiaddr.protocols m = ["ip6"] ∨
       Multiaddr.protocols m = ["ip4", "tcp"] ∨ Multiaddr.protocols m = ["ip6", "tcp"] ∨
       Multiaddr.protocols m = ["ip4", "udp"] ∨ Multiaddr.protocols m = ["ip6", "udp"] ∨
       Multiaddr.protocols m = ["ip4", "udp", "utp"] ∨
       Multiaddr.protocols m = ["ip6", "udp", "utp"]) := by
  unfold IsThinWaist
  rcases hl : Multiaddr.protocols m with _ | ⟨a, _ | ⟨b, _ | ⟨c, _ | ⟨d, l⟩⟩⟩⟩ <;>
    (try simp) <;> (try tauto)

/-- Claim C5 (amended): for every native address producible by a
supported protocol other than the bare-IP shape, converting to a
layered address and back yields a native address semantically equal to
the original (same shape and network name, semantically equal IP, equal
port); the utp round trip preserves the wrapped UDP shape and port. The
bare-IP case of the original claim fails: see the counterexample. -/
theorem claim_roundtrip (a : NetAddr) (hv : NetAddr.valid a = true)
    (hni : NetAddr.isIPAddr a = false) :
    ∃ m b, FromNetAddr (some a) = .ok m ∧ ToNetAddr m = some (.ok b) ∧
      NetAddr.semEq b a = true := by
  cases a with
  | tcp ip port =>
    simp only [NetAddr.valid, Bool.and_eq_true, decide_eq_true_eq] at hv
    exact roundtrip_tcp ip port hv.1 hv.2
  | udp ip port =>
    simp only [NetAddr.valid, Bool.and_eq_true, decide_eq_true_eq] at hv
    exact roundtrip_udp ip port hv.1 hv.2
  | utp child =>
    cases child with
    | udp ip port =>
      simp only [NetAddr.valid, Bool.and_eq_true, decide_eq_true_eq] at hv
      exact roundtrip_utp ip port hv.1 hv.2
    | tcp ip port => exact absurd hv (by simp [NetAddr.valid])
    | utp c => exact absurd hv (by simp [NetAddr.valid])
    | ipAddr i => exact absurd hv (by simp [NetAddr.valid])
  | ipAddr ip => exact absurd hni (by simp [NetAddr.isIPAddr])

/-- Witness for the amended C5 on a concrete TCP address. -/
theorem claim_roundtrip_witness :
    ∃ m b, FromNetAddr (some (.tcp [1, 2, 3, 4] 80)) = .ok m ∧
      ToNetAddr m = some (.ok b) ∧ NetAddr.semEq b (.tcp [1, 2, 3, 4] 80) = true :=
  claim_roundtrip (.tcp [1, 2, 3, 4] 80) (by decide) (by decide)

/-- Counterexample to C5 as stated: the bare-IP native address shape
reports network name ip, which is not among the registered NetNames
(only ip4 and ip6 are), so FromNetAddr fails with UnsupportedNetwork on
a perfectly valid bare-IP address and no round trip exists for it. -/
theorem claim_roundtrip_ip_counterexample :
    NetAddr.valid (.ipAddr [127, 0, 0, 1]) = true ∧
    FromNetAddr (some (.ipAddr [127, 0, 0, 1])) = .error (.unsupportedNetwork "ip") ∧
    (FromNetAddr (some (.ipAddr [127, 0, 0, 1]))).toOption = none := by
  refine ⟨by decide, rfl, rfl⟩

/-- Claim C6: FromIP fails with the IncorrectAddrConversion error
exactly when the value has neither a 4-byte nor a 16-byte form;
otherwise it yields a single-segment layered address tagged ip4 or ip6,
preferring the 4-byte form (so an IPv4-mapped 16-byte value is reported
as ip4). -/
theorem claim_fromIP (ip : IP) (hb : ip.all (fun x => decide (x < 256)) = true) :
    (FromIP ip = .error .incorrectNetAddr ↔ IP.to4 ip = none ∧ IP.to16 ip = none) ∧
    (∀ b4, IP.to4 ip = some b4 → FromIP ip = .ok [⟨"ip4", some ⟨ipv4Chars b4⟩⟩]) ∧
    (IP.to4 ip = none → IP.to16 ip ≠ none → FromIP ip = .ok [⟨"ip6", some ⟨ipv6Chars ip⟩⟩]) := by
  refine ⟨⟨?_, ?_⟩, ?_, ?_⟩
  · intro h
    constructor
    · cases h4 : IP.to4 ip with
      | some b4 =>
        rw [fromIP_v4 h4 hb] at h
        exact absurd h (by simp)
      | none => rfl
    · cases h16 : IP.to16 ip with
      | some b =>
        cases h4 : IP.to4 ip with
        | some b4 =>
          rw [fromIP_v4 h4 hb] at h
          exact absurd h (by simp)
        | none =>
          rcases to16_cases h16 with ⟨hl4, _⟩ | ⟨hl16, _⟩
          · exact absurd hl4 (to4_none_len h4)
          · rw [fromIP_v6 h4 hl16 hb] at h
            exact absurd h (by simp)
      | none => rfl
  · rintro ⟨h4, h16⟩
    have hn := to16_none_iff.mp h16
    exact fromIP_err hn.1 hn.2
  · intro b4 h4
    exact fromIP_v4 h4 hb
  · intro h4 h16
    cases h16s : IP.to16 ip with
    | none => exact absurd h16s h16
    | some b =>
      rcases to16_cases h16s with ⟨hl4, _⟩ | ⟨hl16, _⟩
      · exact absurd hl4 (to4_none_len h4)
      · exact fromIP_v6 h4 hl16 hb

/-- Witness for C6 on a 4-byte value, a 16-byte value and an invalid
length. -/
theorem claim_fromIP_witness :
    FromIP [1, 2, 3, 4] = .ok [⟨"ip4", some "1.2.3.4"⟩] ∧
    FromIP [0, 0, 0, 0, 0, 0, 0, 0, 0, 0, 0, 0, 0, 0, 0, 1] =
      .ok [⟨"ip6", some "0:0:0:0:0:0:0:1"⟩] ∧
    FromIP [1, 2, 3] = .error .incorrectNetAddr := by
  have h1 := (claim_fromIP [1, 2, 3, 4] (by decide)).2.1 [1, 2, 3, 4] (by decide)
  have h2 := (claim_fromIP [0, 0, 0, 0, 0, 0, 0, 0, 0, 0, 0, 0, 0, 0, 0, 1]
    (by decide)).2.2 (by decide) (by decide)
  have h3 := (claim_fromIP [1, 2, 3] (by decide)).1.mpr ⟨by decide, by decide⟩
  have e1 : (⟨ipv4Chars [1, 2, 3, 4]⟩ : String) = "1.2.3.4" := by decide
  have e2 : (⟨ipv6Chars [0, 0, 0, 0, 0, 0, 0, 0, 0, 0, 0, 0, 0, 0, 0, 1]⟩ : String) =
      "0:0:0:0:0:0:0:1" := by decide
  rw [e1] at h1
  rw [e2] at h2
  exact ⟨h1, h2, h3⟩

/-- Claim C7: FromNetAddr on a nil input fails with the NilAddress
error (no converter is consulted, as the nil branch precedes the
lookup); on a non-nil address it looks up the spec by the network name
of the address, returns the lookup failure unchanged when no spec is
registered for that name, and otherwise invokes the looked-up converter
on the address and returns its result; every name outside the
registered NetNames misses the lookup with UnsupportedNetwork. -/
theorem claim_fromNetAddr_dispatch :
    FromNetAddr none = .error .nilMultiaddr ∧
    (∀ (a : NetAddr) (p : NetAddr → Except Err Multiaddr),
      getAddrParser (NetAddr.network a) = .ok p → FromNetAddr (some a) = p a) ∧
    (∀ (a : NetAddr) (e : Err),
      getAddrParser (NetAddr.network a) = .error e → FromNetAddr (some a) = .error e) ∧
    (∀ n : String, n ∉ (["tcp", "tcp4", "tcp6", "udp", "udp4", "udp6", "utp", "utp4",
      "utp6", "ip4", "ip6"] : List String) →
      getAddrParser n = .error (.unsupportedNetwork n)) := by
  refine ⟨rfl, ?_, ?_, getAddrParser_miss⟩
  · intro a p hp
    simp [FromNetAddr, hp]
  · intro a e he
    simp [FromNetAddr, he]

/-- Witness for C7: dispatch to the tcp converter and the lookup miss
for the bare-IP network name. -/
theorem claim_fromNetAddr_dispatch_witness :
    FromNetAddr (some (.tcp [1, 2, 3, 4] 80)) = parseTcpNetAddr (.tcp [1, 2, 3, 4] 80) ∧
    getAddrParser "ip" = .error (.unsupportedNetwork "ip") :=
  ⟨claim_fromNetAddr_dispatch.2.1 (.tcp [1, 2, 3, 4] 80) parseTcpNetAddr rfl,
   claim_fromNetAddr_dispatch.2.2.2 "ip" (by decide)⟩

/-- Claim C8: on an address with a non-empty protocol list, ToNetAddr
dispatches on the name of the last protocol segment: it looks up the
spec registered under that key, fails with UnsupportedNetwork for an
unregistered key, and otherwise invokes that spec converter on the
whole address; the utp key is registered and maps to the shared basic
converter, so a utp-marked stack dispatches there. -/
theorem claim_toNetAddr_dispatch (m : Multiaddr) (final : String)
    (h : (Multiaddr.protocols m).getLast? = some final) :
    (∀ p, getMaddrParser final = .ok p → ToNetAddr m = some (p m)) ∧
    (∀ e, getMaddrParser final = .error e → ToNetAddr m = some (.error e)) ∧
    (final ∉ (["tcp", "udp", "utp", "ip4", "ip6"] : List String) →
      getMaddrParser final = .error (.unsupportedNetwork final)) ∧
    getMaddrParser "utp" = .ok parseBasicNetMaddr := by
  refine ⟨?_, ?_, getMaddrParser_miss final, rfl⟩
  · intro p hp
    simp [ToNetAddr, h, hp]
  · intro e he
    simp [ToNetAddr, h, he]

/-- Witness for C8 on a utp-marked stack. -/
theorem claim_toNetAddr_dispatch_witness :
    ToNetAddr [⟨"ip4", some "1.2.3.4"⟩, ⟨"udp", some "9"⟩, ⟨"utp", none⟩] =
      some (parseBasicNetMaddr [⟨"ip4", some "1.2.3.4"⟩, ⟨"udp", some "9"⟩, ⟨"utp", none⟩]) :=
  (claim_toNetAddr_dispatch [⟨"ip4", some "1.2.3.4"⟩, ⟨"udp", some "9"⟩, ⟨"utp", none⟩]
    "utp" rfl).1 parseBasicNetMaddr rfl

/-- Claim C9: parseBasicNetMaddr first calls DialArgs and propagates
its error unchanged; on success it dispatches on the network name to
the matching resolver family (tcp, udp, utp or ip names), returning the
resolver result unchanged, and fails with UnsupportedNetwork for every
other network name. -/
theorem claim_parseBasicNetMaddr (m : Multiaddr) :
    (∀ e, DialArgs m = .error e → parseBasicNetMaddr m = .error e) ∧
    (∀ network host, DialArgs m = .ok (network, host) →
      ((network = "tcp" ∨ network = "tcp4" ∨ network = "tcp6") →
        parseBasicNetMaddr m = resolveTCPAddr network host) ∧
      ((network = "udp" ∨ network = "udp4" ∨ network = "udp6") →
        parseBasicNetMaddr m = resolveUDPAddr network host) ∧
      ((network = "utp" ∨ network = "utp4" ∨ network = "utp6") →
        parseBasicNetMaddr m = utpResolveAddr network host) ∧
      ((network = "ip" ∨ network = "ip4" ∨ network = "ip6") →
        parseBasicNetMaddr m = resolveIPAddr network host) ∧
      (network ∉ (["tcp", "tcp4", "tcp6", "udp", "udp4", "udp6", "utp", "utp4", "utp6",
        "ip", "ip4", "ip6"] : List String) →
        parseBasicNetMaddr m = .error (.unsupportedNetwork network))) := by
  constructor
  · intro e he
    simp [parseBasicNetMaddr, he]
  · intro network host hok
    refine ⟨?_, ?_, ?_, ?_, ?_⟩
    · intro hn
      simp only [parseBasicNetMaddr, hok]
      rw [if_pos hn]
    · intro hn
      have h1 : ¬(network = "tcp" ∨ network = "tcp4" ∨ network = "tcp6") := by
        rintro (rfl | rfl | rfl) <;> rcases hn with h | h | h <;> simp at h
      simp only [parseBasicNetMaddr, hok]
      rw [if_neg h1, if_pos hn]
    · intro hn
      have h1 : ¬(network = "tcp" ∨ network = "tcp4" ∨ network = "tcp6") := by
        rintro (rfl | rfl | rfl) <;> rcases hn with h | h | h <;> simp at h
      have h2 : ¬(network = "udp" ∨ network = "udp4" ∨ network = "udp6") := by
        rintro (rfl | rfl | rfl) <;> rcases hn with h | h | h <;> simp at h
      simp only [parseBasicNetMaddr, hok]
      rw [if_neg h1, if_neg h2, if_pos hn]
    · intro hn
      have h1 : ¬(network = "tcp" ∨ network = "tcp4" ∨ network = "tcp6") := by
        rintro (rfl | rfl | rfl) <;> rcases hn with h | h | h <;> simp at h
      have h2 : ¬(network = "udp" ∨ network = "udp4" ∨ network = "udp6") := by
        rintro (rfl | rfl | rfl) <;> rcases hn with h | h | h <;> simp at h
      have h3 : ¬(network = "utp" ∨ network = "utp4" ∨ network = "utp6") := by
        rintro (rfl | rfl | rfl) <;> rcases hn with h | h | h <;> simp at h
      simp only [parseBasicNetMaddr, hok]
      rw [if_neg h1, if_neg h2, if_neg h3, if_pos hn]
    · intro hn
      have h1 : ¬(network = "tcp" ∨ network = "tcp4" ∨ network = "tcp6") := by
        rintro (rfl | rfl | rfl) <;> exact hn (by simp)
      have h2 : ¬(network = "udp" ∨ network = "udp4" ∨ network = "udp6") := by
        rintro (rfl | rfl | rfl) <;> exact hn (by simp)
      have h3 : ¬(network = "utp" ∨ network = "utp4" ∨ network = "utp6") := by
        rintro (rfl | rfl | rfl) <;> exact hn (by simp)
      have h4 : ¬(network = "ip" ∨ network = "ip4" ∨ network = "ip6") := by
        rintro (rfl | rfl | rfl) <;> exact hn (by simp)
      simp only [parseBasicNetMaddr, hok]
      rw [if_neg h1, if_neg h2, if_neg h3, if_neg h4]

/-- Witness for C9: error propagation on the empty address and tcp
dispatch on a concrete thin-waist address. -/
theorem claim_parseBasicNetMaddr_witness :
    parseBasicNetMaddr ([] : Multiaddr) =
      .error (.notThinWaist (Multiaddr.maString [])) ∧
    parseBasicNetMaddr [⟨"ip4", some "1.2.3.4"⟩, ⟨"tcp", some "80"⟩] =
      resolveTCPAddr "tcp4" "1.2.3.4:80" :=
  ⟨(claim_parseBasicNetMaddr []).1 (.notThinWaist (Multiaddr.maString [])) rfl,
   ((claim_parseBasicNetMaddr [⟨"ip4", some "1.2.3.4"⟩, ⟨"tcp", some "80"⟩]).2
     "tcp4" "1.2.3.4:80" rfl).1 (Or.inr (Or.inl rfl))⟩

/-- Claim C10: ToNetAddr indexes protos with len minus one without an
emptiness check; on an address with an empty protocol list the Go code
panics with an index-out-of-range runtime error instead of returning an
error value, modelled here by the none result; ToNetAddr produces a
defined (some) result exactly when the protocol list is non-empty. -/
theorem claim_toNetAddr_empty_panics :
    ToNetAddr [] = none ∧ ∀ m : Multiaddr, ToNetAddr m = none ↔ m = [] := by
  constructor
  · rfl
  · intro m
    constructor
    · intro h
      cases m with
      | nil => rfl
      | cons s rest =>
        exfalso
        cases hgl : (Multiaddr.protocols (s :: rest)).getLast? with
        | none =>
          have hne : Multiaddr.protocols (s :: rest) ≠ [] := by
            simp [Multiaddr.protocols]
          exact hne (List.getLast?_eq_none_iff.mp hgl)
        | some x =>
          unfold ToNetAddr at h
          rw [hgl] at h
          simp at h
    · rintro rfl
      rfl
